import Mathlib

/-!
Shallow embedding of the load stage of the Pipeline-ETL-Portal-da-Transparencia
repository (`src/load.py`, class `PostgresLoader`), together with proofs of the
specified properties of that stage.

The embedding models:
  * a pandas DataFrame as a column list plus a row list (each row a list of
    cell values, positionally aligned with the column list);
  * the destination PostgreSQL database as a namespace-existence flag plus an
    optional table (column list + row list);
  * the two connection handles of `PostgresLoader._connect` — the pooled
    SQLAlchemy engine (autocommitting bulk writes) and the transactional
    psycopg2 connection (manual commit) — via a committed database plus an
    optional open-transaction view on the transactional handle;
  * destination-side failures via an explicit fault environment `Env`: each
    I/O point of the code (connect, liveness ping, catalog inspection, schema
    creation, table creation, truncate, each append batch, each upsert batch,
    rollback) can be told to raise, which models the corresponding Python
    exception at that point;
  * every statement issued against the destination as a logged `Event`
    recording which handle issued it.

Cell values are modelled as strings (the pipeline reads CSV data); none of the
verified properties depends on the cell value type.
-/

/-- Cell values of a dataframe / destination table. -/
abbrev Val := String

/-- A pandas DataFrame: named columns and positionally aligned rows. -/
structure DataFrame where
  columns : List String
  rows : List (List Val)
deriving DecidableEq, Repr

/-- A destination table: its column set and its rows. -/
structure Table where
  columns : List String
  rows : List (List Val)
deriving DecidableEq, Repr

/-- The destination database: whether the target namespace (schema) exists,
and the target table (none when it does not exist). -/
structure Database where
  hasSchema : Bool
  table : Option Table
deriving DecidableEq, Repr

/-- Which of the two handles of `_connect` issued a statement: the pooled
SQLAlchemy engine or the transactional psycopg2 connection. -/
inductive Handle
  | pooled
  | transactional
deriving DecidableEq, Repr

/-- Statements issued against the destination, one constructor per statement
shape occurring in `load.py`. -/
inductive Stmt
  | connectStmt
  | pingStmt
  | createSchema
  | createTable
  | truncate
  | insertBatch (i : Nat)
  | upsertBatch (i : Nat)
  | commitStmt
  | rollbackStmt
  | closeConn
  | disposeEngine
deriving DecidableEq, Repr

/-- A logged destination statement together with the handle that issued it. -/
structure Event where
  handle : Handle
  stmt : Stmt
deriving DecidableEq, Repr

/-- Errors raised by the Python code (all `Exception` subclasses, all caught
at the `load()` boundary). -/
inductive PyError
  | connectionError
  | fileNotFound
  | valueError
  | dbError
deriving DecidableEq, Repr

/-- The metrics dictionary initialized in `PostgresLoader.__init__`.
Wall time is modelled abstractly in natural-number ticks. -/
structure Metrics where
  rows_loaded : Nat
  load_time_seconds : Nat
  table_created : Bool
deriving DecidableEq, Repr

/-- Fault environment: which destination I/O points raise, what the newest
processed file contains (for the `df is None` path), and the wall time the
invocation takes. -/
structure Env where
  connectFail : Bool
  pingFail : Bool
  tableExistsFail : Bool
  createSchemaFail : Bool
  createTableFail : Bool
  truncateFail : Bool
  insertFail : Nat → Bool
  upsertFail : Nat → Bool
  rollbackFail : Bool
  latest : Option DataFrame
  elapsedSeconds : Nat

/-- The loader's connection-and-destination state threaded through `load`:
committed database, pending transaction view of the transactional handle
(none when no transaction is open), whether the psycopg2 connection has been
established, and the statement log. -/
structure LoadState where
  db : Database
  txn : Option Database
  connOpen : Bool
  log : List Event
deriving DecidableEq, Repr

/-- Initial loader state over a given destination database. -/
def mkState (db : Database) : LoadState :=
  { db := db, txn := none, connOpen := false, log := [] }

/-- The database as seen by the transactional handle: the pending transaction
view when one is open, the committed database otherwise. -/
def txnView (s : LoadState) : Database :=
  s.txn.getD s.db

/-- Execute a statement on the transactional (psycopg2) handle: its effect is
buffered in the open transaction (autocommit is off). -/
def execTxn (s : LoadState) (st : Stmt) (f : Database → Database) : LoadState :=
  { s with txn := some (f (txnView s)), log := s.log ++ [Event.mk .transactional st] }

/-- Commit on the transactional handle (`self.connection.commit()`): the
pending view becomes the committed database. -/
def commitTxn (s : LoadState) : LoadState :=
  { s with db := txnView s, txn := none,
           log := s.log ++ [Event.mk .transactional .commitStmt] }

/-- Rollback on the transactional handle (`self.connection.rollback()`):
the pending view is discarded. -/
def rollbackTxn (s : LoadState) : LoadState :=
  { s with txn := none, log := s.log ++ [Event.mk .transactional .rollbackStmt] }

/-- Execute a statement through the pooled SQLAlchemy engine: its effect is
applied to the committed database at once (the engine autocommits). -/
def execPooled (s : LoadState) (st : Stmt) (f : Database → Database) : LoadState :=
  { s with db := f s.db, log := s.log ++ [Event.mk .pooled st] }

/-- Reserved marker of pipeline-internal columns (`col.startswith('_')`). -/
def internalMark : String := "_"

/-- The upsert key column hard-coded in `_load_upsert` (`codigo`). -/
def keyColName : String := "codigo"

/-- Mode string for full replacement. -/
def modeReplace : String := "replace"

/-- Mode string for append. -/
def modeAppend : String := "append"

/-- Mode string for upsert. -/
def modeUpsert : String := "upsert"

/-- The fixed batch size of `_load_append` and `_load_upsert`. -/
def batchSize : Nat := 1000

/-- Model of `PostgresLoader._connect`: `create_engine` is lazy and does no
I/O; `psycopg2.connect` may raise (then no transactional handle exists); the
liveness ping `SELECT version()` on the engine may raise (after the
transactional handle was already established). -/
def connectDB (env : Env) (s : LoadState) : Option PyError × LoadState :=
  if env.connectFail then
    (some PyError.connectionError, s)
  else if env.pingFail then
    (some PyError.connectionError,
      { s with connOpen := true,
               log := s.log ++ [Event.mk .transactional .connectStmt] })
  else
    (none,
      { s with connOpen := true,
               log := s.log ++ [Event.mk .transactional .connectStmt,
                                Event.mk .pooled .pingStmt] })

/-- Model of `PostgresLoader._disconnect`: closes the psycopg2 connection when
it is open, and always disposes the SQLAlchemy engine. -/
def disconnectDB (s : LoadState) : LoadState :=
  let s1 :=
    if s.connOpen then
      { s with connOpen := false, log := s.log ++ [Event.mk .transactional .closeConn] }
    else s
  { s1 with log := s1.log ++ [Event.mk .pooled .disposeEngine] }

/-- Model of the `df is None` branch of `load`: `_load_latest_processed_data`
returns the newest processed file's dataframe or raises `FileNotFoundError`. -/
def resolveDf (env : Env) (df? : Option DataFrame) : Except PyError DataFrame :=
  match df? with
  | some d => Except.ok d
  | none =>
    match env.latest with
    | some d => Except.ok d
    | none => Except.error PyError.fileNotFound

/-- Model of `DataFrame.drop(columns=bad)`: a NEW dataframe without the named
columns (pandas `drop` with the default `inplace=False` copies; the receiver
is left untouched). -/
def dropColumns (df : DataFrame) (bad : List String) : DataFrame :=
  { columns := df.columns.filter (fun c => decide (c ∉ bad)),
    rows := df.rows.map (fun r =>
      ((df.columns.zip r).filter (fun p => decide (p.1 ∉ bad))).map (fun p => p.2)) }

/-- Decides `col.startswith('_')`: the internal marker's characters are a
prefix of the column name's characters. -/
def isInternalCol (c : String) : Bool :=
  internalMark.data.isPrefixOf c.data

/-- Model of `PostgresLoader._clean_dataframe`: drop every column whose name
starts with the internal marker. -/
def cleanDataFrame (df : DataFrame) : DataFrame :=
  let internalCols := df.columns.filter (fun c => isInternalCol c)
  if internalCols.isEmpty then df else dropColumns df internalCols

/-- Model of `PostgresLoader._create_table`: `CREATE SCHEMA IF NOT EXISTS` on
the transactional handle followed by a commit, then
`df.head(0).to_sql(..., con=self.engine, if_exists='replace')` — table
creation issued through the POOLED engine, producing an empty table with the
dataframe's columns. -/
def createTable (env : Env) (df : DataFrame) (s : LoadState) : Option PyError × LoadState :=
  if env.createSchemaFail then
    (some PyError.dbError, s)
  else
    let s1 := commitTxn (execTxn s .createSchema (fun d => { d with hasSchema := true }))
    if env.createTableFail then
      (some PyError.dbError, s1)
    else
      (none, execPooled s1 .createTable
        (fun d => { d with table := some (Table.mk df.columns []) }))

/-- Model of the schema-reconciliation step of `load`: `_table_exists` (a
catalog inspection that can only fail for connectivity reasons), then
`_create_table` plus setting `metrics['table_created']` when absent. -/
def reconcileSchema (env : Env) (df : DataFrame) (m : Metrics) (s : LoadState) :
    Option PyError × Metrics × LoadState :=
  if env.tableExistsFail then
    (some PyError.dbError, m, s)
  else if s.db.table.isSome then
    (none, m, s)
  else
    match createTable env df s with
    | (some e, s1) => (some e, m, s1)
    | (none, s1) => (none, { m with table_created := true }, s1)

/-- Partition rows into consecutive batches of `batchSize`
(`for i in range(0, len(df), batch_size): batch = df.iloc[i:i+batch_size]`).
Structural recursion on a fuel bound so the function evaluates by `decide`;
`rows.length` fuel always suffices since every step consumes at least one row. -/
def toBatchesFuel : Nat → List (List Val) → List (List (List Val))
  | _, [] => []
  | 0, _ :: _ => []
  | n + 1, r :: rs => ((r :: rs).take batchSize) :: toBatchesFuel n ((r :: rs).drop batchSize)

/-- The batch partition of a row list used by `_load_append` / `_load_upsert`. -/
def toBatches (rows : List (List Val)) : List (List (List Val)) :=
  toBatchesFuel rows.length rows

/-- Effect of one `batch.to_sql(..., if_exists='append')` call through the
pooled engine: append the batch's rows to the table (pandas would create the
table from the dataframe's columns were it absent). -/
def toSqlAppend (cols : List String) (batch : List (List Val)) (d : Database) : Database :=
  match d.table with
  | none => { d with table := some (Table.mk cols batch) }
  | some t => { d with table := some (Table.mk t.columns (t.rows ++ batch)) }

/-- The batch loop of `PostgresLoader._load_append`: each batch is written
through the pooled engine, sequentially; a failing batch raises, leaving the
previously written batches committed. -/
def loadAppendAux (env : Env) (cols : List String) :
    List (List (List Val)) → Nat → LoadState → Option PyError × LoadState
  | [], _, s => (none, s)
  | b :: rest, i, s =>
    if env.insertFail i then (some PyError.dbError, s)
    else loadAppendAux env cols rest (i + 1) (execPooled s (.insertBatch i) (toSqlAppend cols b))

/-- Model of `PostgresLoader._load_append`. -/
def loadAppend (env : Env) (df : DataFrame) (s : LoadState) : Option PyError × LoadState :=
  loadAppendAux env df.columns (toBatches df.rows) 0 s

/-- Model of `PostgresLoader._load_replace`: `TRUNCATE TABLE ... CASCADE` on
the transactional handle, commit, then delegate to `_load_append`. -/
def loadReplace (env : Env) (df : DataFrame) (s : LoadState) : Option PyError × LoadState :=
  if env.truncateFail then (some PyError.dbError, s)
  else
    let s1 := commitTxn (execTxn s .truncate
      (fun d => { d with table := d.table.map (fun t => Table.mk t.columns []) }))
    loadAppend env df s1

/-- Position of the upsert key column `codigo` in a column list. -/
def keyIdx (cols : List String) : Nat :=
  cols.findIdx (fun c => decide (c = keyColName))

/-- Semantics of one parameter tuple of the generated
`INSERT ... ON CONFLICT (codigo) DO UPDATE SET c = EXCLUDED.c` statement, for
a destination table whose column list equals the statement's column list (the
schema-compatibility precondition of the spec; the insert would be rejected
otherwise). Under that alignment, updating every non-key column to the
incoming value — the key values being equal at a conflict — replaces the
conflicting row by the incoming row; without a conflict the row is inserted. -/
def upsertRow (k : Nat) : List (List Val) → List Val → List (List Val)
  | [], row => [row]
  | r :: rs, row =>
    if r[k]? = row[k]? then row :: rs else r :: upsertRow k rs row

/-- Effect of one `cursor.executemany` call of `_load_upsert` on a database:
upsert every tuple of the batch, in row order, into the target table. -/
def upsertBatchEffect (k : Nat) (b : List (List Val)) (d : Database) : Database :=
  { d with table := d.table.map (fun t => Table.mk t.columns (b.foldl (upsertRow k) t.rows)) }

/-- The batch loop of `PostgresLoader._load_upsert`: every batch executes on
the transactional handle inside the one open transaction (`executemany` runs
the statement once per row, in row order). -/
def loadUpsertAux (env : Env) (k : Nat) :
    List (List (List Val)) → Nat → LoadState → Option PyError × LoadState
  | [], _, s => (none, s)
  | b :: rest, i, s =>
    if env.upsertFail i then (some PyError.dbError, s)
    else loadUpsertAux env k rest (i + 1)
      (execTxn s (.upsertBatch i) (upsertBatchEffect k b))

/-- Model of `PostgresLoader._load_upsert`: the generated statement is invalid
when the key column is absent from the column list (the destination rejects
it); otherwise all batches run in one transaction, committed after the loop. -/
def loadUpsert (env : Env) (df : DataFrame) (s : LoadState) : Option PyError × LoadState :=
  if decide (keyColName ∉ df.columns) then (some PyError.dbError, s)
  else
    match loadUpsertAux env (keyIdx df.columns) (toBatches df.rows) 0 s with
    | (some e, s1) => (some e, s1)
    | (none, s1) => (none, commitTxn s1)

/-- The mode dispatch of `load` (`if mode == 'replace' ... else raise
ValueError`). -/
def applyMode (env : Env) (df : DataFrame) (mode : String) (s : LoadState) :
    Option PyError × LoadState :=
  if mode = modeReplace then loadReplace env df s
  else if mode = modeAppend then loadAppend env df s
  else if mode = modeUpsert then loadUpsert env df s
  else (some PyError.valueError, s)

/-- The metrics dictionary as initialized by `PostgresLoader.__init__`. -/
def initMetrics : Metrics :=
  { rows_loaded := 0, load_time_seconds := 0, table_created := false }

/-- The stages of the `try` body of `PostgresLoader.load` that follow a
successful `_connect`: resolve the dataframe, strip internal columns,
reconcile the schema, dispatch on the mode, and finalize the metrics. -/
def loadBodyRest (env : Env) (df? : Option DataFrame) (mode : String) (m : Metrics)
    (s : LoadState) : Option PyError × Metrics × LoadState :=
  match resolveDf env df? with
  | .error e => (some e, m, s)
  | .ok df0 =>
    let df := cleanDataFrame df0
    match reconcileSchema env df m s with
    | (some e, m2, s2) => (some e, m2, s2)
    | (none, m2, s2) =>
      match applyMode env df mode s2 with
      | (some e, s3) => (some e, m2, s3)
      | (none, s3) =>
        (none,
          { m2 with rows_loaded := df.rows.length,
                    load_time_seconds := env.elapsedSeconds },
          s3)

/-- The `try` body of `PostgresLoader.load`: connect, then the remaining
stages. Returns the raised error (none on success) together with the metrics
and state at the moment control leaves the body. -/
def loadBody (env : Env) (df? : Option DataFrame) (mode : String) (m : Metrics)
    (s : LoadState) : Option PyError × Metrics × LoadState :=
  match connectDB env s with
  | (some e, s1) => (some e, m, s1)
  | (none, s1) => loadBodyRest env df? mode m s1

/-- Everything `PostgresLoader.load` leaves behind: the returned boolean, the
destination/connection state, the metrics dictionary, the dataframe object
the caller's variable still refers to after the call (the code rebinds only
its local `df`; `drop` copies), and the caught error, if any. -/
structure Outcome where
  ok : Bool
  state : LoadState
  metrics : Metrics
  callerDf : Option DataFrame
  err : Option PyError
deriving DecidableEq, Repr

/-- Model of `PostgresLoader.load` (as invoked through `load_to_postgres`,
which constructs a fresh loader per invocation): run the body; on an error,
attempt a best-effort rollback when the transactional handle exists (a
failing rollback is swallowed by `except: pass`) and return `False`; in all
cases run `_disconnect` in the `finally` block. -/
def load (env : Env) (df? : Option DataFrame) (mode : String) (s0 : LoadState) : Outcome :=
  match loadBody env df? mode initMetrics s0 with
  | (none, m, s) =>
    { ok := true, state := disconnectDB s, metrics := m, callerDf := df?, err := none }
  | (some e, m, s) =>
    let s1 := if s.connOpen then (if env.rollbackFail then s else rollbackTxn s) else s
    { ok := false, state := disconnectDB s1, metrics := m, callerDf := df?, err := some e }

/-- Which handle each statement shape is issued on in `load.py`: note that
table creation (`df.head(0).to_sql(..., con=self.engine)`) goes through the
pooled engine while namespace creation, truncation, upserts, commit and
rollback go through the transactional psycopg2 connection. -/
def handleOf : Stmt → Handle
  | .connectStmt => .transactional
  | .pingStmt => .pooled
  | .createSchema => .transactional
  | .createTable => .pooled
  | .truncate => .transactional
  | .insertBatch _ => .pooled
  | .upsertBatch _ => .transactional
  | .commitStmt => .transactional
  | .rollbackStmt => .transactional
  | .closeConn => .transactional
  | .disposeEngine => .pooled

/-- A fault environment in which no destination I/O point raises. -/
def Env.noFaults (e : Env) : Prop :=
  e.connectFail = false ∧ e.pingFail = false ∧ e.tableExistsFail = false ∧
  e.createSchemaFail = false ∧ e.createTableFail = false ∧ e.truncateFail = false ∧
  (∀ i, e.insertFail i = false) ∧ (∀ i, e.upsertFail i = false) ∧
  e.rollbackFail = false

/-- The events logged by the append loop for `n` batches starting at batch
index `i`: sequential bulk inserts through the pooled engine. -/
def insertEvents (i n : Nat) : List Event :=
  (List.range' i n).map (fun j => Event.mk Handle.pooled (Stmt.insertBatch j))

/-- The events logged by the upsert loop for `n` batches starting at batch
index `i`: sequential `executemany` calls on the transactional handle. -/
def upsertEvents (i n : Nat) : List Event :=
  (List.range' i n).map (fun j => Event.mk Handle.transactional (Stmt.upsertBatch j))

/-! ## Concrete fixtures for witnesses and counterexamples -/

/-- A fault-free environment. -/
def quietEnv : Env :=
  { connectFail := false, pingFail := false, tableExistsFail := false,
    createSchemaFail := false, createTableFail := false, truncateFail := false,
    insertFail := fun _ => false, upsertFail := fun _ => false,
    rollbackFail := false, latest := none, elapsedSeconds := 7 }

/-- A fault environment whose truncate statement raises. -/
def truncFailEnv : Env := { quietEnv with truncateFail := true }

/-- A fault environment whose first upsert batch raises. -/
def upsertFailEnv : Env := { quietEnv with upsertFail := fun i => decide (i = 0) }

/-- A small dataframe with a pipeline-internal column. -/
def dfFix : DataFrame :=
  ⟨["codigo", "nome", "_meta"], [["1", "a", "x"], ["2", "b", "y"]]⟩

/-- A destination holding the table with one prior row. -/
def dbFix : Database := ⟨true, some ⟨["codigo", "nome"], [["1", "old"]]⟩⟩

/-- A destination without namespace or table. -/
def dbNone : Database := ⟨false, none⟩

/-- Every event of the log was issued on the handle `load.py` uses for that
statement shape. -/
def logOk (l : List Event) : Prop :=
  ∀ e ∈ l, e.handle = handleOf e.stmt

/-- An unrecognized mode string used in counterexamples. -/
def modeBogus : String := "bogus"

/-- A concrete key value used in witnesses. -/
def keyOne : Val := "1"

/-- No column of the destination table (when present) carries the internal
marker. -/
def dbColsOk (d : Database) : Prop :=
  ∀ t, d.table = some t → ∀ c ∈ t.columns, isInternalCol c = false

/-- No internal-marked column in the committed database nor in the pending
transaction view. -/
def stColsOk (s : LoadState) : Prop :=
  dbColsOk s.db ∧ ∀ v, s.txn = some v → dbColsOk v


/-! ## Batch partition lemmas -/

theorem batchSize_pos : 0 < batchSize := by decide

theorem toBatchesFuel_nil (n : Nat) : toBatchesFuel n [] = [] := by
  cases n <;> rfl

theorem toBatchesFuel_congr :
    ∀ (n m : Nat) (rows : List (List Val)), rows.length ≤ n → rows.length ≤ m →
      toBatchesFuel n rows = toBatchesFuel m rows := by
  intro n
  induction n with
  | zero =>
    intro m rows h _
    cases rows with
    | nil => simp [toBatchesFuel_nil]
    | cons r rs => simp at h
  | succ n ih =>
    intro m rows h hm
    cases rows with
    | nil => simp [toBatchesFuel_nil]
    | cons r rs =>
      cases m with
      | zero => simp at hm
      | succ m =>
        have hbs := batchSize_pos
        simp only [List.length_cons] at h hm
        have hd : (List.drop batchSize (r :: rs)).length ≤ n := by
          simp only [List.length_drop, List.length_cons]
          omega
        have hdm : (List.drop batchSize (r :: rs)).length ≤ m := by
          simp only [List.length_drop, List.length_cons]
          omega
        simp only [toBatchesFuel]
        rw [ih m _ hd hdm]

theorem toBatchesFuel_eq_toBatches (n : Nat) (rows : List (List Val))
    (h : rows.length ≤ n) : toBatchesFuel n rows = toBatches rows :=
  toBatchesFuel_congr n rows.length rows h le_rfl

/-- Unfolding equation of `toBatches` on a nonempty row list. -/
theorem toBatches_cons (r : List Val) (rs : List (List Val)) :
    toBatches (r :: rs) =
      ((r :: rs).take batchSize) :: toBatches ((r :: rs).drop batchSize) := by
  have hbs := batchSize_pos
  have hd2 : (List.drop batchSize (r :: rs)).length ≤ rs.length := by
    simp only [List.length_drop, List.length_cons]
    omega
  simp only [toBatches, List.length_cons, toBatchesFuel]
  rw [toBatchesFuel_congr rs.length (List.drop batchSize (r :: rs)).length _ hd2 le_rfl]

theorem toBatches_join :
    ∀ (rows : List (List Val)), (toBatches rows).flatten = rows := by
  have key : ∀ (n : Nat) (rows : List (List Val)), rows.length ≤ n →
      (toBatchesFuel n rows).flatten = rows := by
    intro n
    induction n with
    | zero =>
      intro rows h
      cases rows with
      | nil => simp [toBatchesFuel_nil]
      | cons r rs => simp at h
    | succ n ih =>
      intro rows h
      cases rows with
      | nil => simp [toBatchesFuel_nil]
      | cons r rs =>
        have hbs := batchSize_pos
        simp only [toBatchesFuel, List.flatten_cons]
        rw [ih]
        · exact List.take_append_drop _ _
        · simp only [List.length_drop, List.length_cons]
          simp only [List.length_cons] at h
          omega
  intro rows
  exact key rows.length rows le_rfl

/-- Every batch holds at most `batchSize` rows. -/
theorem toBatches_mem_length (rows : List (List Val)) (b : List (List Val))
    (hb : b ∈ toBatches rows) : b.length ≤ batchSize := by
  have key : ∀ (n : Nat) (rows : List (List Val)), rows.length ≤ n →
      ∀ b ∈ toBatchesFuel n rows, b.length ≤ batchSize := by
    intro n
    induction n with
    | zero =>
      intro rows h b hb
      cases rows with
      | nil => simp [toBatchesFuel_nil] at hb
      | cons r rs => simp at h
    | succ n ih =>
      intro rows h b hb
      cases rows with
      | nil => simp [toBatchesFuel_nil] at hb
      | cons r rs =>
        have hbs := batchSize_pos
        simp only [toBatchesFuel, List.mem_cons] at hb
        rcases hb with hb | hb
        · subst hb
          simp [List.length_take]
        · refine ih _ ?_ b hb
          simp only [List.length_drop, List.length_cons]
          simp only [List.length_cons] at h
          omega
  exact key rows.length rows le_rfl b hb

theorem toBatchesFuel_eq_nil_iff (n : Nat) (rows : List (List Val))
    (h : rows.length ≤ n) : toBatchesFuel n rows = [] ↔ rows = [] := by
  cases rows with
  | nil => simp [toBatchesFuel_nil]
  | cons r rs =>
    cases n with
    | zero => simp at h
    | succ n => simp [toBatchesFuel]

/-- Every batch other than the last holds exactly `batchSize` rows. -/
theorem toBatches_full (rows : List (List Val)) (i : Nat) (b : List (List Val))
    (hb : (toBatches rows)[i]? = some b) (hi : i + 1 < (toBatches rows).length) :
    b.length = batchSize := by
  have key : ∀ (n : Nat) (rows : List (List Val)), rows.length ≤ n →
      ∀ (i : Nat) (b : List (List Val)), (toBatchesFuel n rows)[i]? = some b →
        i + 1 < (toBatchesFuel n rows).length → b.length = batchSize := by
    intro n
    induction n with
    | zero =>
      intro rows h i b hb hi
      cases rows with
      | nil => simp [toBatchesFuel_nil] at hb
      | cons r rs => simp at h
    | succ n ih =>
      intro rows h i b hb hi
      cases rows with
      | nil => simp [toBatchesFuel_nil] at hb
      | cons r rs =>
        have hbs := batchSize_pos
        have hlen : (List.drop batchSize (r :: rs)).length ≤ n := by
          simp only [List.length_drop, List.length_cons]
          simp only [List.length_cons] at h
          omega
        cases i with
        | zero =>
          simp only [toBatchesFuel, List.getElem?_cons_zero, Option.some.injEq] at hb
          simp only [toBatchesFuel, List.length_cons] at hi
          have hne : toBatchesFuel n (List.drop batchSize (r :: rs)) ≠ [] := by
            intro hnil
            rw [hnil] at hi
            simp at hi
          have hdrop : List.drop batchSize (r :: rs) ≠ [] := by
            intro hnil
            exact hne ((toBatchesFuel_eq_nil_iff n _ hlen).mpr hnil)
          have hbig : batchSize < (r :: rs).length := by
            by_contra hle
            push_neg at hle
            exact hdrop (List.drop_eq_nil_of_le hle)
          subst hb
          simp only [List.length_take]
          omega
        | succ i =>
          simp only [toBatchesFuel, List.getElem?_cons_succ] at hb
          simp only [toBatchesFuel, List.length_cons] at hi
          exact ih _ hlen i b hb (by omega)
  exact key rows.length rows le_rfl i b hb hi

/-- A nonempty dataset of at most one batch is a single batch. -/
theorem toBatches_single (rows : List (List Val)) (hne : rows ≠ [])
    (hlen : rows.length ≤ batchSize) : toBatches rows = [rows] := by
  cases rows with
  | nil => exact absurd rfl hne
  | cons r rs =>
    rw [toBatches_cons, List.take_of_length_le hlen, List.drop_eq_nil_of_le hlen]
    rfl

/-- A dataset of exactly `batchSize` rows forms one full batch. -/
theorem toBatches_replicate_exact (r : List Val) :
    toBatches (List.replicate batchSize r) = [List.replicate batchSize r] := by
  refine toBatches_single _ ?_ ?_
  · intro h
    have h2 := congrArg List.length h
    rw [List.length_replicate] at h2
    simp only [List.length_nil] at h2
    exact absurd h2 (by decide)
  · rw [List.length_replicate]

/-- A dataset of `batchSize + 1` rows forms one full batch plus one singleton. -/
theorem toBatches_replicate_succ (r : List Val) :
    toBatches (List.replicate (batchSize + 1) r) =
      [List.replicate batchSize r, [r]] := by
  have h1 : List.replicate (batchSize + 1) r = r :: List.replicate batchSize r :=
    List.replicate_succ r batchSize
  rw [h1, toBatches_cons, ← h1, List.take_replicate, List.drop_replicate]
  have hmin : min batchSize (batchSize + 1) = batchSize := by omega
  have hsub : batchSize + 1 - batchSize = 1 := by omega
  rw [hmin, hsub, List.replicate_one,
    toBatches_single [r] (by simp) (by rw [List.length_singleton]; exact batchSize_pos)]

/-! ## Batch loop characterizations -/

theorem insertEvents_succ (i n : Nat) :
    insertEvents i (n + 1) =
      Event.mk Handle.pooled (Stmt.insertBatch i) :: insertEvents (i + 1) n := by
  simp [insertEvents, List.range'_succ]

theorem upsertEvents_succ (i n : Nat) :
    upsertEvents i (n + 1) =
      Event.mk Handle.transactional (Stmt.upsertBatch i) :: upsertEvents (i + 1) n := by
  simp [upsertEvents, List.range'_succ]

/-- Fault-free run of the append loop over a database holding the table:
every batch lands, in order, through the pooled engine. -/
theorem loadAppendAux_spec (env : Env) (cols : List String)
    (hf : ∀ j, env.insertFail j = false) :
    ∀ (batches : List (List (List Val))) (i : Nat) (s : LoadState) (tc : List String)
      (tr : List (List Val)), s.db.table = some (Table.mk tc tr) →
      loadAppendAux env cols batches i s =
        (none,
          { s with
            db := { s.db with table := some (Table.mk tc (tr ++ batches.flatten)) },
            log := s.log ++ insertEvents i batches.length }) := by
  intro batches
  induction batches with
  | nil =>
    intro i s tc tr ht
    cases s with
    | mk db txn connOpen log =>
      cases db with
      | mk hs tb =>
        simp only at ht
        subst ht
        simp [loadAppendAux, insertEvents]
  | cons b rest ih =>
    intro i s tc tr ht
    simp only [loadAppendAux, hf i, Bool.false_eq_true, if_false]
    rw [ih (i + 1) _ tc (tr ++ b) (by simp [execPooled, toSqlAppend, ht])]
    cases s with
    | mk db txn connOpen log =>
      cases db with
      | mk hs tb =>
        simp only at ht
        subst ht
        simp [execPooled, toSqlAppend, List.length_cons, insertEvents_succ]

/-- The upsert loop never touches the committed database (all effects stay in
the pending transaction), regardless of faults. -/
theorem loadUpsertAux_db (env : Env) (k : Nat) :
    ∀ (batches : List (List (List Val))) (i : Nat) (s : LoadState),
      (loadUpsertAux env k batches i s).2.db = s.db := by
  intro batches
  induction batches with
  | nil => intro i s; rfl
  | cons b rest ih =>
    intro i s
    simp only [loadUpsertAux]
    by_cases h : env.upsertFail i = true
    · simp [h]
    · simp only [Bool.not_eq_true] at h
      simp only [h, Bool.false_eq_true, if_false]
      rw [ih]
      rfl

/-- Fault-free run of the upsert loop inside an open transaction: the batches
fold, in order, into the pending view. -/
theorem loadUpsertAux_spec (env : Env) (k : Nat)
    (hf : ∀ j, env.upsertFail j = false) :
    ∀ (batches : List (List (List Val))) (i : Nat) (s : LoadState) (d : Database),
      s.txn = some d →
      loadUpsertAux env k batches i s =
        (none,
          { s with
            txn := some (batches.foldl (fun acc b => upsertBatchEffect k b acc) d),
            log := s.log ++ upsertEvents i batches.length }) := by
  intro batches
  induction batches with
  | nil =>
    intro i s d ht
    cases s with
    | mk db txn connOpen log =>
      simp only at ht
      subst ht
      simp [loadUpsertAux, upsertEvents]
  | cons b rest ih =>
    intro i s d ht
    simp only [loadUpsertAux, hf i, Bool.false_eq_true, if_false]
    rw [ih (i + 1) _ (upsertBatchEffect k b d)
      (by simp [execTxn, txnView, ht])]
    cases s with
    | mk db txn connOpen log =>
      simp only at ht
      subst ht
      simp [execTxn, txnView, List.length_cons, upsertEvents_succ, List.foldl_cons]

/-- Folding the upsert effect batch-by-batch over a database holding the table
equals upserting all rows of the batches, in order, into the table. -/
theorem upsertFold_table (k : Nat) :
    ∀ (batches : List (List (List Val))) (d : Database) (tc : List String)
      (tr : List (List Val)), d.table = some (Table.mk tc tr) →
      batches.foldl (fun acc b => upsertBatchEffect k b acc) d =
        { d with table := some (Table.mk tc (batches.flatten.foldl (upsertRow k) tr)) } := by
  intro batches
  induction batches with
  | nil =>
    intro d tc tr ht
    cases d with
    | mk hs tb =>
      simp only at ht
      subst ht
      simp
  | cons b rest ih =>
    intro d tc tr ht
    simp only [List.foldl_cons]
    rw [ih _ tc (b.foldl (upsertRow k) tr) (by simp [upsertBatchEffect, ht])]
    cases d with
    | mk hs tb =>
      simp only at ht
      subst ht
      simp [upsertBatchEffect, List.flatten_cons, List.foldl_append]

/-- Fault-free run of `_load_upsert` when the key column is present: all
batches execute on the transactional handle inside one transaction and the
single commit comes after every batch has succeeded. -/
theorem loadUpsert_spec (env : Env) (df : DataFrame) (s : LoadState)
    (hf : ∀ j, env.upsertFail j = false) (hkey : keyColName ∈ df.columns)
    (htxn : s.txn = none) :
    loadUpsert env df s =
      (none,
        { s with
          db := (toBatches df.rows).foldl
                  (fun acc b => upsertBatchEffect (keyIdx df.columns) b acc) s.db,
          txn := none,
          log := s.log ++ upsertEvents 0 (toBatches df.rows).length
                   ++ [Event.mk Handle.transactional Stmt.commitStmt] }) := by
  unfold loadUpsert
  rw [if_neg (by simp [hkey])]
  cases hb : toBatches df.rows with
  | nil =>
    simp only [loadUpsertAux]
    cases s with
    | mk db txn connOpen log =>
      simp only at htxn
      subst htxn
      simp [commitTxn, txnView, upsertEvents]
  | cons b rest =>
    simp only [loadUpsertAux, hf 0, Bool.false_eq_true, if_false]
    rw [loadUpsertAux_spec env (keyIdx df.columns) hf rest 1 _
      (upsertBatchEffect (keyIdx df.columns) b (txnView s)) (by simp [execTxn])]
    cases s with
    | mk db txn connOpen log =>
      simp only at htxn
      subst htxn
      simp [execTxn, commitTxn, txnView, List.length_cons, upsertEvents_succ,
        List.foldl_cons, List.append_assoc]

/-- Fault-free run of `_load_append` over an existing table: all rows of the
dataframe are appended, in input order, through the pooled engine. -/
theorem loadAppend_spec (env : Env) (df : DataFrame) (s : LoadState)
    (tc : List String) (tr : List (List Val))
    (hf : ∀ j, env.insertFail j = false) (ht : s.db.table = some (Table.mk tc tr)) :
    loadAppend env df s =
      (none,
        { s with
          db := { s.db with table := some (Table.mk tc (tr ++ df.rows)) },
          log := s.log ++ insertEvents 0 (toBatches df.rows).length }) := by
  unfold loadAppend
  rw [loadAppendAux_spec env df.columns hf (toBatches df.rows) 0 s tc tr ht,
    toBatches_join]

/-- Fault-free run of `_load_replace` over an existing table: a cascading
truncate on the transactional handle, a commit, then the append loop; the
table ends up holding exactly the dataframe's rows. -/
theorem loadReplace_spec (env : Env) (df : DataFrame) (s : LoadState)
    (tc : List String) (tr : List (List Val))
    (htf : env.truncateFail = false) (hf : ∀ j, env.insertFail j = false)
    (ht : s.db.table = some (Table.mk tc tr)) (htxn : s.txn = none) :
    loadReplace env df s =
      (none,
        { s with
          db := { s.db with table := some (Table.mk tc df.rows) },
          txn := none,
          log := s.log ++ [Event.mk Handle.transactional Stmt.truncate,
                           Event.mk Handle.transactional Stmt.commitStmt]
                   ++ insertEvents 0 (toBatches df.rows).length }) := by
  unfold loadReplace
  rw [if_neg (by simp [htf])]
  rw [loadAppend_spec env df _ tc []
    (by exact hf)
    (by simp [commitTxn, execTxn, txnView, htxn, ht])]
  cases s with
  | mk db txn connOpen log =>
    simp only at htxn ht
    subst htxn
    cases db with
    | mk hs tb =>
      simp only at ht
      subst ht
      simp [commitTxn, execTxn, txnView, List.append_assoc]

/-! ## Full-run characterizations of `load` -/

/-- Complete fault-free `load(df, 'replace')` run against an existing table:
connect, skip creation, truncate + commit on the transactional handle, append
all cleaned rows through the pooled engine, finalize metrics, disconnect. -/
theorem load_replace_run (env : Env) (df : DataFrame) (db0 : Database)
    (tc : List String) (tr : List (List Val)) (hf : env.noFaults)
    (ht : db0.table = some (Table.mk tc tr)) :
    load env (some df) modeReplace (mkState db0) =
      { ok := true,
        state :=
          { db := { db0 with table := some (Table.mk tc (cleanDataFrame df).rows) },
            txn := none, connOpen := false,
            log := [Event.mk Handle.transactional Stmt.connectStmt,
                    Event.mk Handle.pooled Stmt.pingStmt,
                    Event.mk Handle.transactional Stmt.truncate,
                    Event.mk Handle.transactional Stmt.commitStmt]
              ++ insertEvents 0 (toBatches (cleanDataFrame df).rows).length
              ++ [Event.mk Handle.transactional Stmt.closeConn,
                  Event.mk Handle.pooled Stmt.disposeEngine] },
        metrics := { rows_loaded := (cleanDataFrame df).rows.length,
                     load_time_seconds := env.elapsedSeconds,
                     table_created := false },
        callerDf := some df, err := none } := by
  obtain ⟨h1, h2, h3, h4, h5, h6, h7, h8, h9⟩ := hf
  unfold load loadBody loadBodyRest
  simp only [connectDB, h1, h2, Bool.false_eq_true, if_false, mkState, resolveDf,
    reconcileSchema, h3, ht, Option.isSome_some, if_true, applyMode, if_pos rfl]
  rw [loadReplace_spec env (cleanDataFrame df) _ tc tr h6 h7 (by simp [ht]) (by simp)]
  simp [disconnectDB, initMetrics, List.append_assoc]

/-- Complete fault-free `load(df, 'append')` run against an existing table:
all cleaned rows are appended after the existing rows, in input order. -/
theorem load_append_run (env : Env) (df : DataFrame) (db0 : Database)
    (tc : List String) (tr : List (List Val)) (hf : env.noFaults)
    (ht : db0.table = some (Table.mk tc tr)) :
    load env (some df) modeAppend (mkState db0) =
      { ok := true,
        state :=
          { db := { db0 with table := some (Table.mk tc (tr ++ (cleanDataFrame df).rows)) },
            txn := none, connOpen := false,
            log := [Event.mk Handle.transactional Stmt.connectStmt,
                    Event.mk Handle.pooled Stmt.pingStmt]
              ++ insertEvents 0 (toBatches (cleanDataFrame df).rows).length
              ++ [Event.mk Handle.transactional Stmt.closeConn,
                  Event.mk Handle.pooled Stmt.disposeEngine] },
        metrics := { rows_loaded := (cleanDataFrame df).rows.length,
                     load_time_seconds := env.elapsedSeconds,
                     table_created := false },
        callerDf := some df, err := none } := by
  obtain ⟨h1, h2, h3, h4, h5, h6, h7, h8, h9⟩ := hf
  unfold load loadBody loadBodyRest
  simp only [connectDB, h1, h2, Bool.false_eq_true, if_false, mkState, resolveDf,
    reconcileSchema, h3, ht, Option.isSome_some, if_true, applyMode,
    modeAppend, modeReplace, modeUpsert]
  rw [loadAppend_spec env (cleanDataFrame df) _ tc tr h7 (by simp [ht])]
  simp [disconnectDB, initMetrics, List.append_assoc]

/-- Complete fault-free `load(df, 'upsert')` run against an existing table
when the cleaned dataframe carries the key column: one transaction holds all
batches, committed at the end; the rows fold through the upsert semantics. -/
theorem load_upsert_run (env : Env) (df : DataFrame) (db0 : Database)
    (tc : List String) (tr : List (List Val)) (hf : env.noFaults)
    (ht : db0.table = some (Table.mk tc tr))
    (hkey : keyColName ∈ (cleanDataFrame df).columns) :
    load env (some df) modeUpsert (mkState db0) =
      { ok := true,
        state :=
          { db := { db0 with table := some (Table.mk tc
              ((cleanDataFrame df).rows.foldl
                (upsertRow (keyIdx (cleanDataFrame df).columns)) tr)) },
            txn := none, connOpen := false,
            log := [Event.mk Handle.transactional Stmt.connectStmt,
                    Event.mk Handle.pooled Stmt.pingStmt]
              ++ upsertEvents 0 (toBatches (cleanDataFrame df).rows).length
              ++ [Event.mk Handle.transactional Stmt.commitStmt,
                  Event.mk Handle.transactional Stmt.closeConn,
                  Event.mk Handle.pooled Stmt.disposeEngine] },
        metrics := { rows_loaded := (cleanDataFrame df).rows.length,
                     load_time_seconds := env.elapsedSeconds,
                     table_created := false },
        callerDf := some df, err := none } := by
  obtain ⟨h1, h2, h3, h4, h5, h6, h7, h8, h9⟩ := hf
  unfold load loadBody loadBodyRest
  simp only [connectDB, h1, h2, Bool.false_eq_true, if_false, mkState, resolveDf,
    reconcileSchema, h3, ht, Option.isSome_some, if_true, applyMode,
    modeAppend, modeReplace, modeUpsert]
  rw [loadUpsert_spec env (cleanDataFrame df) _ h8 hkey (by simp)]
  rw [upsertFold_table (keyIdx (cleanDataFrame df).columns) _ _ tc tr (by simp [ht]),
    toBatches_join]
  simp [disconnectDB, initMetrics, List.append_assoc]

/-- Complete fault-free run with an unrecognized mode against an existing
table: the `ValueError` is raised after connecting and after the (no-op)
schema reconciliation, before any destination mutation; rollback and
disconnect follow; the caller sees `False`. -/
theorem load_invalid_exists_run (env : Env) (df : DataFrame) (db0 : Database)
    (mode : String) (hf : env.noFaults) (ht : db0.table.isSome = true)
    (hm1 : mode ≠ modeReplace) (hm2 : mode ≠ modeAppend) (hm3 : mode ≠ modeUpsert) :
    load env (some df) mode (mkState db0) =
      { ok := false,
        state :=
          { db := db0, txn := none, connOpen := false,
            log := [Event.mk Handle.transactional Stmt.connectStmt,
                    Event.mk Handle.pooled Stmt.pingStmt,
                    Event.mk Handle.transactional Stmt.rollbackStmt,
                    Event.mk Handle.transactional Stmt.closeConn,
                    Event.mk Handle.pooled Stmt.disposeEngine] },
        metrics := initMetrics,
        callerDf := some df, err := some PyError.valueError } := by
  obtain ⟨h1, h2, h3, h4, h5, h6, h7, h8, h9⟩ := hf
  unfold load loadBody loadBodyRest
  simp [connectDB, h1, h2, mkState, resolveDf, reconcileSchema, h3, ht,
    applyMode, hm1, hm2, hm3, h9, rollbackTxn, disconnectDB]

/-- Complete fault-free run with an unrecognized mode against an absent
table: schema reconciliation first creates the namespace (transactional
handle, committed) and an empty table with the cleaned columns (pooled
engine) — only then is the `ValueError` raised; the invocation returns
`False` but the created table persists. -/
theorem load_invalid_absent_run (env : Env) (df : DataFrame) (db0 : Database)
    (mode : String) (hf : env.noFaults) (ht : db0.table = none)
    (hm1 : mode ≠ modeReplace) (hm2 : mode ≠ modeAppend) (hm3 : mode ≠ modeUpsert) :
    load env (some df) mode (mkState db0) =
      { ok := false,
        state :=
          { db := Database.mk true (some (Table.mk (cleanDataFrame df).columns [])),
            txn := none, connOpen := false,
            log := [Event.mk Handle.transactional Stmt.connectStmt,
                    Event.mk Handle.pooled Stmt.pingStmt,
                    Event.mk Handle.transactional Stmt.createSchema,
                    Event.mk Handle.transactional Stmt.commitStmt,
                    Event.mk Handle.pooled Stmt.createTable,
                    Event.mk Handle.transactional Stmt.rollbackStmt,
                    Event.mk Handle.transactional Stmt.closeConn,
                    Event.mk Handle.pooled Stmt.disposeEngine] },
        metrics := { rows_loaded := 0, load_time_seconds := 0, table_created := true },
        callerDf := some df, err := some PyError.valueError } := by
  obtain ⟨h1, h2, h3, h4, h5, h6, h7, h8, h9⟩ := hf
  unfold load loadBody loadBodyRest
  simp [connectDB, h1, h2, mkState, resolveDf, reconcileSchema, h3, ht,
    createTable, h4, h5, execTxn, commitTxn, execPooled, txnView,
    applyMode, hm1, hm2, hm3, h9, rollbackTxn, disconnectDB, initMetrics]

/-! ## Key-filter semantics of the upsert statement -/

/-- Upserting a row whose key differs from `K` leaves the rows with key `K`
unchanged (a conflicting row it replaces shares its own key, not `K`). -/
theorem upsertRow_filter_ne (k : Nat) (K : Val) :
    ∀ (rows : List (List Val)) (row : List Val), row[k]? ≠ some K →
      (upsertRow k rows row).filter (fun r => decide (r[k]? = some K)) =
        rows.filter (fun r => decide (r[k]? = some K)) := by
  intro rows
  induction rows with
  | nil =>
    intro row h
    simp [upsertRow, h]
  | cons r rs ih =>
    intro row h
    simp only [upsertRow]
    by_cases hc : r[k]? = row[k]?
    · rw [if_pos hc]
      simp [List.filter_cons, h, hc]
    · rw [if_neg hc]
      simp only [List.filter_cons]
      rw [ih row h]

/-- Upserting a row with key `K` into rows holding at most one row with key
`K` leaves exactly the incoming row as the row with key `K`. -/
theorem upsertRow_filter_eq (k : Nat) (K : Val) :
    ∀ (rows : List (List Val)) (row : List Val), row[k]? = some K →
      (rows.filter (fun r => decide (r[k]? = some K))).length ≤ 1 →
      (upsertRow k rows row).filter (fun r => decide (r[k]? = some K)) = [row] := by
  intro rows
  induction rows with
  | nil =>
    intro row h _
    simp [upsertRow, h]
  | cons r rs ih =>
    intro row h hu
    simp only [upsertRow]
    by_cases hc : r[k]? = row[k]?
    · rw [if_pos hc]
      have hr : r[k]? = some K := hc.trans h
      have hrs : rs.filter (fun r => decide (r[k]? = some K)) = [] := by
        simp only [List.filter_cons, hr, decide_eq_true_eq] at hu
        rw [if_pos trivial] at hu
        simp only [List.length_cons] at hu
        exact List.length_eq_zero.mp (by omega)
      simp [List.filter_cons, h, hrs]
    · rw [if_neg hc]
      have hr : ¬ r[k]? = some K := fun hr => hc (hr.trans h.symm)
      simp only [List.filter_cons, hr, decide_eq_true_eq] at hu ⊢
      rw [if_neg not_false] at hu ⊢
      exact ih row h hu

/-- Upserting preserves "at most one row with key `K`". -/
theorem upsertRow_filter_le (k : Nat) (K : Val) (rows : List (List Val))
    (row : List Val)
    (hu : (rows.filter (fun r => decide (r[k]? = some K))).length ≤ 1) :
    ((upsertRow k rows row).filter (fun r => decide (r[k]? = some K))).length ≤ 1 := by
  by_cases h : row[k]? = some K
  · rw [upsertRow_filter_eq k K rows row h hu]
    simp
  · rw [upsertRow_filter_ne k K rows row h]
    exact hu

/-- Last-write-wins: folding a row sequence through the upsert semantics over
rows holding at most one row with key `K` leaves, as the rows with key `K`,
exactly the last upserted row with key `K` (or the original ones if none). -/
theorem foldl_upsert_filter (k : Nat) (K : Val) :
    ∀ (ds : List (List Val)) (acc : List (List Val)),
      (acc.filter (fun r => decide (r[k]? = some K))).length ≤ 1 →
      (ds.foldl (upsertRow k) acc).filter (fun r => decide (r[k]? = some K)) =
        match (ds.filter (fun r => decide (r[k]? = some K))).getLast? with
        | some w => [w]
        | none => acc.filter (fun r => decide (r[k]? = some K)) := by
  intro ds
  induction ds with
  | nil =>
    intro acc hu
    simp
  | cons d ds ih =>
    intro acc hu
    simp only [List.foldl_cons]
    by_cases hd : d[k]? = some K
    · have hacc : (upsertRow k acc d).filter (fun r => decide (r[k]? = some K)) = [d] :=
        upsertRow_filter_eq k K acc d hd hu
      rw [ih (upsertRow k acc d) (by rw [hacc]; simp), hacc]
      simp only [List.filter_cons, hd]
      rw [if_pos (by simp)]
      cases hcase : (ds.filter (fun r => decide (r[k]? = some K))).getLast? with
      | none => simp [List.getLast?_cons, hcase]
      | some w => simp [List.getLast?_cons, hcase]
    · have hacc : (upsertRow k acc d).filter (fun r => decide (r[k]? = some K)) =
          acc.filter (fun r => decide (r[k]? = some K)) :=
        upsertRow_filter_ne k K acc d hd
      rw [ih (upsertRow k acc d) (by rw [hacc]; exact hu), hacc]
      simp [List.filter_cons, hd]

/-! ## Field-preservation lemmas -/

theorem createTable_connOpen (env : Env) (df : DataFrame) (s : LoadState) :
    (createTable env df s).2.connOpen = s.connOpen := by
  unfold createTable
  split
  · rfl
  · split <;> simp [execPooled, commitTxn, execTxn]

theorem reconcileSchema_connOpen (env : Env) (df : DataFrame) (m : Metrics)
    (s : LoadState) : (reconcileSchema env df m s).2.2.connOpen = s.connOpen := by
  unfold reconcileSchema
  split
  · rfl
  split
  · rfl
  rcases hct : createTable env df s with ⟨e?, s1⟩
  have hco := createTable_connOpen env df s
  rw [hct] at hco
  cases e? <;> simpa using hco

theorem loadAppendAux_connOpen (env : Env) (cols : List String) :
    ∀ (batches : List (List (List Val))) (i : Nat) (s : LoadState),
      (loadAppendAux env cols batches i s).2.connOpen = s.connOpen := by
  intro batches
  induction batches with
  | nil => intro i s; rfl
  | cons b rest ih =>
    intro i s
    simp only [loadAppendAux]
    split
    · rfl
    · rw [ih]
      rfl

theorem loadUpsertAux_connOpen (env : Env) (k : Nat) :
    ∀ (batches : List (List (List Val))) (i : Nat) (s : LoadState),
      (loadUpsertAux env k batches i s).2.connOpen = s.connOpen := by
  intro batches
  induction batches with
  | nil => intro i s; rfl
  | cons b rest ih =>
    intro i s
    simp only [loadUpsertAux]
    split
    · rfl
    · rw [ih]
      rfl

theorem applyMode_connOpen (env : Env) (df : DataFrame) (mode : String)
    (s : LoadState) : (applyMode env df mode s).2.connOpen = s.connOpen := by
  unfold applyMode loadReplace loadAppend loadUpsert
  split
  · split
    · rfl
    · rw [loadAppendAux_connOpen]
      simp [commitTxn, execTxn]
  split
  · rw [loadAppendAux_connOpen]
  split
  · split
    · rfl
    · rcases hub : loadUpsertAux env (keyIdx (df.columns)) (toBatches df.rows) 0 s with ⟨e?, s1⟩
      have hco := loadUpsertAux_connOpen env (keyIdx (df.columns)) (toBatches df.rows) 0 s
      rw [hub] at hco
      cases e? <;> simpa [commitTxn] using hco
  · rfl

theorem loadBodyRest_connOpen (env : Env) (df? : Option DataFrame) (mode : String)
    (m : Metrics) (s : LoadState) :
    (loadBodyRest env df? mode m s).2.2.connOpen = s.connOpen := by
  unfold loadBodyRest
  rcases resolveDf env df? with e | df0
  · rfl
  simp only
  rcases hrec : reconcileSchema env (cleanDataFrame df0) m s with ⟨e?, m2, s2⟩
  have hco := reconcileSchema_connOpen env (cleanDataFrame df0) m s
  rw [hrec] at hco
  cases e? with
  | some e => simpa using hco
  | none =>
    simp only
    rcases ham : applyMode env (cleanDataFrame df0) mode s2 with ⟨e2?, s3⟩
    have hco2 := applyMode_connOpen env (cleanDataFrame df0) mode s2
    rw [ham] at hco2
    cases e2? <;> simp <;> rw [hco2] <;> exact hco

theorem disconnectDB_connOpen (s : LoadState) : (disconnectDB s).connOpen = false := by
  unfold disconnectDB
  by_cases h : s.connOpen = true <;> simp [h]

theorem disconnectDB_mem_dispose (s : LoadState) :
    Event.mk Handle.pooled Stmt.disposeEngine ∈ (disconnectDB s).log := by
  unfold disconnectDB
  by_cases h : s.connOpen = true <;> simp [h]

theorem disconnectDB_mem_mono (s : LoadState) (e : Event) (he : e ∈ s.log) :
    e ∈ (disconnectDB s).log := by
  unfold disconnectDB
  by_cases h : s.connOpen = true <;> simp [h, he]

theorem loadBody_connOpen (env : Env) (df? : Option DataFrame) (mode : String)
    (m : Metrics) (s : LoadState) (h : s.connOpen = false) :
    (loadBody env df? mode m s).2.2.connOpen = !env.connectFail := by
  unfold loadBody
  by_cases hc : env.connectFail = true
  · simp [connectDB, hc, h]
  · simp only [Bool.not_eq_true] at hc
    by_cases hp : env.pingFail = true
    · simp [connectDB, hc, hp]
    · simp only [Bool.not_eq_true] at hp
      simp only [connectDB, hc, hp, Bool.false_eq_true, if_false]
      rw [loadBodyRest_connOpen]
      simp [hc]

theorem quietEnv_noFaults : quietEnv.noFaults := by
  refine ⟨rfl, rfl, rfl, rfl, rfl, rfl, fun i => rfl, fun i => rfl, rfl⟩

/-! ## Claim theorems -/

/-- C1: every error raised within `load()` is caught at the orchestrator
boundary: the outcome's error is exactly the body's original error whatever
the rollback does (a failing rollback is swallowed and cannot mask it), the
returned boolean is false exactly when an error was raised and no exception
propagates, `_disconnect` runs on every exit path (the engine-dispose event
is always logged and the connection is closed), and when the transactional
handle was established a best-effort rollback is attempted on failure. -/
theorem load_error_boundary (env : Env) (df? : Option DataFrame) (mode : String)
    (s0 : LoadState) (h0 : s0.connOpen = false) :
    ((load env df? mode s0).err = (loadBody env df? mode initMetrics s0).1) ∧
    ((load env df? mode s0).ok = ((loadBody env df? mode initMetrics s0).1).isNone) ∧
    (Event.mk Handle.pooled Stmt.disposeEngine ∈ (load env df? mode s0).state.log) ∧
    ((load env df? mode s0).state.connOpen = false) ∧
    (env.connectFail = false → env.rollbackFail = false →
      ((loadBody env df? mode initMetrics s0).1).isSome = true →
      Event.mk Handle.transactional Stmt.rollbackStmt ∈ (load env df? mode s0).state.log) := by
  have hco := loadBody_connOpen env df? mode initMetrics s0 h0
  rcases hb : loadBody env df? mode initMetrics s0 with ⟨e?, mb, sb⟩
  rw [hb] at hco
  simp only at hco
  cases e? with
  | none =>
    unfold load
    rw [hb]
    simp [disconnectDB_mem_dispose, disconnectDB_connOpen, hb]
  | some e =>
    unfold load
    rw [hb]
    simp only [hb, Option.isNone_some, Option.isSome_some]
    refine ⟨by trivial, by trivial, disconnectDB_mem_dispose _, disconnectDB_connOpen _, ?_⟩
    intro hc hr _
    rw [hc] at hco
    simp only [Bool.not_false] at hco
    simp only [hco, if_true, hr, Bool.false_eq_true, if_false]
    refine disconnectDB_mem_mono _ _ ?_
    simp [rollbackTxn]

/-- Witness for C1 at a concrete failing run (truncate raises mid-load). -/
theorem load_error_boundary_witness :
    ((load truncFailEnv (some dfFix) modeReplace (mkState dbFix)).err =
      (loadBody truncFailEnv (some dfFix) modeReplace initMetrics (mkState dbFix)).1) ∧
    ((load truncFailEnv (some dfFix) modeReplace (mkState dbFix)).ok =
      ((loadBody truncFailEnv (some dfFix) modeReplace initMetrics (mkState dbFix)).1).isNone) ∧
    (Event.mk Handle.pooled Stmt.disposeEngine ∈
      (load truncFailEnv (some dfFix) modeReplace (mkState dbFix)).state.log) ∧
    ((load truncFailEnv (some dfFix) modeReplace (mkState dbFix)).state.connOpen = false) ∧
    (truncFailEnv.connectFail = false → truncFailEnv.rollbackFail = false →
      ((loadBody truncFailEnv (some dfFix) modeReplace initMetrics (mkState dbFix)).1).isSome = true →
      Event.mk Handle.transactional Stmt.rollbackStmt ∈
        (load truncFailEnv (some dfFix) modeReplace (mkState dbFix)).state.log) :=
  load_error_boundary truncFailEnv (some dfFix) modeReplace (mkState dbFix) rfl

/-- C5: mode=replace issues a cascading truncate on the transactional handle,
commits it, then delegates to the batch writer in append sub-mode; after a
successful run the destination table holds exactly the cleaned rows of the
dataset and no prior rows remain. -/
theorem replace_supplants_table (env : Env) (df : DataFrame) (db0 : Database)
    (tc : List String) (tr : List (List Val)) (hf : env.noFaults)
    (ht : db0.table = some (Table.mk tc tr)) :
    ((load env (some df) modeReplace (mkState db0)).ok = true) ∧
    ((load env (some df) modeReplace (mkState db0)).state.db.table =
      some (Table.mk tc (cleanDataFrame df).rows)) ∧
    ((load env (some df) modeReplace (mkState db0)).state.log =
      [Event.mk Handle.transactional Stmt.connectStmt,
       Event.mk Handle.pooled Stmt.pingStmt,
       Event.mk Handle.transactional Stmt.truncate,
       Event.mk Handle.transactional Stmt.commitStmt]
        ++ insertEvents 0 (toBatches (cleanDataFrame df).rows).length
        ++ [Event.mk Handle.transactional Stmt.closeConn,
            Event.mk Handle.pooled Stmt.disposeEngine]) := by
  rw [load_replace_run env df db0 tc tr hf ht]
  exact ⟨rfl, rfl, rfl⟩

/-- Witness for C5 at a concrete replace run over a table with a prior row. -/
theorem replace_supplants_table_witness :
    ((load quietEnv (some dfFix) modeReplace (mkState dbFix)).ok = true) ∧
    ((load quietEnv (some dfFix) modeReplace (mkState dbFix)).state.db.table =
      some (Table.mk ["codigo", "nome"] (cleanDataFrame dfFix).rows)) ∧
    ((load quietEnv (some dfFix) modeReplace (mkState dbFix)).state.log =
      [Event.mk Handle.transactional Stmt.connectStmt,
       Event.mk Handle.pooled Stmt.pingStmt,
       Event.mk Handle.transactional Stmt.truncate,
       Event.mk Handle.transactional Stmt.commitStmt]
        ++ insertEvents 0 (toBatches (cleanDataFrame dfFix).rows).length
        ++ [Event.mk Handle.transactional Stmt.closeConn,
            Event.mk Handle.pooled Stmt.disposeEngine]) :=
  replace_supplants_table quietEnv dfFix dbFix ["codigo", "nome"] [["1", "old"]]
    quietEnv_noFaults rfl

/-- C7: the batch writer partitions the dataset into consecutive,
non-overlapping, order-preserving batches of fixed size `batchSize` (last
batch possibly smaller), written sequentially through the pooled engine;
datasets of exactly `batchSize` and `batchSize + 1` rows form one and two
batches respectively; a fault-free append run loads every row with
destination order matching input order. -/
theorem append_batching (env : Env) (df : DataFrame) (db0 : Database)
    (tc : List String) (tr : List (List Val)) (hf : env.noFaults)
    (ht : db0.table = some (Table.mk tc tr)) :
    (∀ rows : List (List Val), (toBatches rows).flatten = rows) ∧
    (∀ (rows : List (List Val)) (b : List (List Val)),
      b ∈ toBatches rows → b.length ≤ batchSize) ∧
    (∀ (rows : List (List Val)) (i : Nat) (b : List (List Val)),
      (toBatches rows)[i]? = some b → i + 1 < (toBatches rows).length →
      b.length = batchSize) ∧
    (∀ r : List Val, toBatches (List.replicate batchSize r) = [List.replicate batchSize r]) ∧
    (∀ r : List Val, toBatches (List.replicate (batchSize + 1) r) =
      [List.replicate batchSize r, [r]]) ∧
    ((load env (some df) modeAppend (mkState db0)).ok = true) ∧
    ((load env (some df) modeAppend (mkState db0)).state.db.table =
      some (Table.mk tc (tr ++ (cleanDataFrame df).rows))) ∧
    ((load env (some df) modeAppend (mkState db0)).state.log =
      [Event.mk Handle.transactional Stmt.connectStmt,
       Event.mk Handle.pooled Stmt.pingStmt]
        ++ insertEvents 0 (toBatches (cleanDataFrame df).rows).length
        ++ [Event.mk Handle.transactional Stmt.closeConn,
            Event.mk Handle.pooled Stmt.disposeEngine]) := by
  rw [load_append_run env df db0 tc tr hf ht]
  exact ⟨toBatches_join, toBatches_mem_length, toBatches_full,
    toBatches_replicate_exact, toBatches_replicate_succ, rfl, rfl, rfl⟩

/-- Witness for C7 at a concrete append run with two prior-content rows. -/
theorem append_batching_witness :
    ((toBatches dfFix.rows).flatten = dfFix.rows) ∧
    (toBatches (List.replicate batchSize ["x"]) = [List.replicate batchSize ["x"]]) ∧
    ((load quietEnv (some dfFix) modeAppend (mkState dbFix)).ok = true) ∧
    ((load quietEnv (some dfFix) modeAppend (mkState dbFix)).state.db.table =
      some (Table.mk ["codigo", "nome"] ([["1", "old"]] ++ (cleanDataFrame dfFix).rows))) :=
  ⟨(append_batching quietEnv dfFix dbFix ["codigo", "nome"] [["1", "old"]]
      quietEnv_noFaults rfl).1 dfFix.rows,
   (append_batching quietEnv dfFix dbFix ["codigo", "nome"] [["1", "old"]]
      quietEnv_noFaults rfl).2.2.2.1 ["x"],
   (append_batching quietEnv dfFix dbFix ["codigo", "nome"] [["1", "old"]]
      quietEnv_noFaults rfl).2.2.2.2.2.1,
   (append_batching quietEnv dfFix dbFix ["codigo", "nome"] [["1", "old"]]
      quietEnv_noFaults rfl).2.2.2.2.2.2.1⟩

/-- C3 (amended): an unrecognized mode fails with the `ValueError` after
connection establishment, returning false, and no truncate or row write ever
reaches the destination — but mode validation runs only after schema
reconciliation, so when the table was absent the invocation has already
created the namespace and an empty table before failing. -/
theorem invalid_mode_after_reconcile (env : Env) (df : DataFrame) (db0 : Database)
    (mode : String) (hf : env.noFaults) (hm1 : mode ≠ modeReplace)
    (hm2 : mode ≠ modeAppend) (hm3 : mode ≠ modeUpsert) :
    ((load env (some df) mode (mkState db0)).ok = false) ∧
    ((load env (some df) mode (mkState db0)).err = some PyError.valueError) ∧
    (∀ e ∈ (load env (some df) mode (mkState db0)).state.log,
      e.stmt ≠ Stmt.truncate ∧ (∀ i, e.stmt ≠ Stmt.insertBatch i) ∧
      (∀ i, e.stmt ≠ Stmt.upsertBatch i)) ∧
    (∀ t, db0.table = some t → (load env (some df) mode (mkState db0)).state.db = db0) ∧
    (db0.table = none → (load env (some df) mode (mkState db0)).state.db =
      Database.mk true (some (Table.mk (cleanDataFrame df).columns []))) := by
  cases htb : db0.table with
  | some t =>
    rw [load_invalid_exists_run env df db0 mode hf (by rw [htb]; rfl) hm1 hm2 hm3]
    refine ⟨rfl, rfl, ?_, fun t' _ => rfl, fun hn => nomatch hn⟩
    intro e he
    simp only [List.mem_cons, List.not_mem_nil, or_false] at he
    rcases he with rfl | rfl | rfl | rfl | rfl <;>
      exact ⟨by simp, fun i => by simp, fun i => by simp⟩
  | none =>
    rw [load_invalid_absent_run env df db0 mode hf htb hm1 hm2 hm3]
    refine ⟨rfl, rfl, ?_, ?_, fun _ => rfl⟩
    · intro e he
      simp only [List.mem_cons, List.not_mem_nil, or_false] at he
      rcases he with rfl | rfl | rfl | rfl | rfl | rfl | rfl | rfl <;>
        exact ⟨by simp, fun i => by simp, fun i => by simp⟩
    · intro t' ht'
      exact nomatch ht'

/-- Witness for C3's amended statement at a concrete run with absent table. -/
theorem invalid_mode_after_reconcile_witness :
    ((load quietEnv (some dfFix) modeBogus (mkState dbNone)).ok = false) ∧
    ((load quietEnv (some dfFix) modeBogus (mkState dbNone)).err = some PyError.valueError) ∧
    (∀ e ∈ (load quietEnv (some dfFix) modeBogus (mkState dbNone)).state.log,
      e.stmt ≠ Stmt.truncate ∧ (∀ i, e.stmt ≠ Stmt.insertBatch i) ∧
      (∀ i, e.stmt ≠ Stmt.upsertBatch i)) ∧
    (∀ t, dbNone.table = some t →
      (load quietEnv (some dfFix) modeBogus (mkState dbNone)).state.db = dbNone) ∧
    (dbNone.table = none → (load quietEnv (some dfFix) modeBogus (mkState dbNone)).state.db =
      Database.mk true (some (Table.mk (cleanDataFrame dfFix).columns []))) :=
  invalid_mode_after_reconcile quietEnv dfFix dbNone modeBogus quietEnv_noFaults
    (by decide) (by decide) (by decide)

/-- Counterexample to C3 as stated: with an unrecognized mode and an absent
table, the invocation mutates the destination (namespace plus empty table
are created, the latter through the pooled engine) before the `ValueError`
is raised. -/
theorem invalid_mode_mutates_counterexample :
    ((load quietEnv (some dfFix) modeBogus (mkState dbNone)).err = some PyError.valueError) ∧
    ((load quietEnv (some dfFix) modeBogus (mkState dbNone)).state.db ≠ dbNone) ∧
    (Event.mk Handle.pooled Stmt.createTable ∈
      (load quietEnv (some dfFix) modeBogus (mkState dbNone)).state.log) := by
  decide

/-- C10: the caller's dataframe object is never mutated by `load`: internal
column removal builds a fresh dropped copy bound to the local variable, so
the caller's binding still holds the original frame, including any
internal-prefixed columns, on both success and failure. -/
theorem caller_dataframe_unmutated (env : Env) (df? : Option DataFrame)
    (mode : String) (s0 : LoadState) :
    ((load env df? mode s0).callerDf = df?) ∧
    (∀ df : DataFrame, (cleanDataFrame df).columns =
      df.columns.filter (fun c => !(isInternalCol c))) := by
  constructor
  · unfold load
    rcases hb : loadBody env df? mode initMetrics s0 with ⟨e?, m, s⟩
    cases e? <;> rfl
  · intro df
    unfold cleanDataFrame dropColumns
    by_cases hin : (df.columns.filter (fun c => isInternalCol c)).isEmpty = true
    · rw [if_pos hin]
      rw [List.isEmpty_iff] at hin
      rw [List.filter_eq_nil_iff] at hin
      symm
      rw [List.filter_eq_self]
      intro c hc
      simpa using hin c hc
    · rw [if_neg hin]
      simp only
      apply List.filter_congr
      intro c hc
      rcases h : isInternalCol c with _ | _
      · simp [List.mem_filter, h]
      · simp [List.mem_filter, h, hc]

/-- C6: after a successful `load(df, 'upsert')` over a schema-compatible
table whose rows hold at most one row with key value `K` (the uniqueness
constraint the upsert relies on), exactly one row with key `K` remains and
it equals the LAST row of the cleaned dataset carrying key `K` — every
non-key column takes that row's incoming value (last-write-wins within the
batch sequence). -/
theorem upsert_key_last_write (env : Env) (df : DataFrame) (db0 : Database)
    (tc : List String) (tr : List (List Val)) (K : Val) (hf : env.noFaults)
    (ht : db0.table = some (Table.mk tc tr))
    (_hcols : tc = (cleanDataFrame df).columns)
    (hkey : keyColName ∈ (cleanDataFrame df).columns)
    (huniq : (tr.filter (fun r =>
      decide (r[keyIdx (cleanDataFrame df).columns]? = some K))).length ≤ 1)
    (hK : ((cleanDataFrame df).rows.filter (fun r =>
      decide (r[keyIdx (cleanDataFrame df).columns]? = some K))) ≠ [])
    (_hprior : (tr.filter (fun r =>
      decide (r[keyIdx (cleanDataFrame df).columns]? = some K))) ≠ []) :
    ∃ w, ((cleanDataFrame df).rows.filter (fun r =>
        decide (r[keyIdx (cleanDataFrame df).columns]? = some K))).getLast? = some w ∧
      ((load env (some df) modeUpsert (mkState db0)).ok = true) ∧
      ∃ finalRows,
        (load env (some df) modeUpsert (mkState db0)).state.db.table =
          some (Table.mk tc finalRows) ∧
        finalRows.filter (fun r =>
          decide (r[keyIdx (cleanDataFrame df).columns]? = some K)) = [w] := by
  obtain ⟨w, hw⟩ : ∃ w, ((cleanDataFrame df).rows.filter (fun r =>
      decide (r[keyIdx (cleanDataFrame df).columns]? = some K))).getLast? = some w := by
    cases hl : ((cleanDataFrame df).rows.filter (fun r =>
        decide (r[keyIdx (cleanDataFrame df).columns]? = some K))).getLast? with
    | none =>
      rw [List.getLast?_eq_none_iff] at hl
      exact absurd hl hK
    | some w => exact ⟨w, rfl⟩
  refine ⟨w, hw, ?_, ?_⟩
  · rw [load_upsert_run env df db0 tc tr hf ht hkey]
  · rw [load_upsert_run env df db0 tc tr hf ht hkey]
    refine ⟨_, rfl, ?_⟩
    rw [foldl_upsert_filter (keyIdx (cleanDataFrame df).columns) K
      (cleanDataFrame df).rows tr huniq, hw]

/-- Witness for C6: upserting a dataset holding key "1" over a table already
holding a row with key "1". -/
theorem upsert_key_last_write_witness :
    ∃ w, ((cleanDataFrame dfFix).rows.filter (fun r =>
        decide (r[keyIdx (cleanDataFrame dfFix).columns]? = some keyOne))).getLast? = some w ∧
      ((load quietEnv (some dfFix) modeUpsert (mkState dbFix)).ok = true) ∧
      ∃ finalRows,
        (load quietEnv (some dfFix) modeUpsert (mkState dbFix)).state.db.table =
          some (Table.mk ["codigo", "nome"] finalRows) ∧
        finalRows.filter (fun r =>
          decide (r[keyIdx (cleanDataFrame dfFix).columns]? = some keyOne)) = [w] :=
  upsert_key_last_write quietEnv dfFix dbFix ["codigo", "nome"] [["1", "old"]] keyOne
    quietEnv_noFaults rfl (by decide) (by decide) (by decide) (by decide) (by decide)

/-! ## Failure-path database preservation (upsert) -/

theorem reconcileSchema_db_table (env : Env) (df : DataFrame) (m : Metrics)
    (s : LoadState) (htxn : s.txn = none) :
    (∀ t, s.db.table = some t → (reconcileSchema env df m s).2.2 = s) ∧
    (s.db.table = none →
      (reconcileSchema env df m s).2.2.db.table = none ∨
      (reconcileSchema env df m s).2.2.db.table = some (Table.mk df.columns [])) := by
  constructor
  · intro t ht
    unfold reconcileSchema
    split
    · rfl
    split
    · rfl
    · rename_i hns
      rw [ht] at hns
      simp at hns
  · intro hn
    unfold reconcileSchema
    split
    · left
      exact hn
    split
    · rename_i hs
      rw [hn] at hs
      simp at hs
    · rcases hct : createTable env df s with ⟨e?, s1⟩
      have hs1 : s1.db.table = none ∨ s1.db.table = some (Table.mk df.columns []) := by
        unfold createTable at hct
        split at hct
        · cases hct
          left
          exact hn
        · split at hct
          · cases hct
            left
            simp [commitTxn, execTxn, txnView, htxn, hn]
          · cases hct
            right
            simp [execPooled, commitTxn, execTxn, txnView]
      cases e? <;> simpa using hs1

theorem loadUpsert_err_db (env : Env) (df : DataFrame) (s : LoadState)
    (h : ((loadUpsert env df s).1).isSome = true) :
    (loadUpsert env df s).2.db = s.db := by
  unfold loadUpsert at h ⊢
  by_cases hg : decide (keyColName ∉ df.columns) = true
  · rw [if_pos hg]
  · rw [if_neg hg] at h ⊢
    rcases haux : loadUpsertAux env (keyIdx df.columns) (toBatches df.rows) 0 s with ⟨e?, s1⟩
    have hdb := loadUpsertAux_db env (keyIdx df.columns) (toBatches df.rows) 0 s
    rw [haux] at hdb h
    cases e? with
    | none => simp at h
    | some e => simpa using hdb

theorem loadBodyRest_upsert_db (env : Env) (df : DataFrame) (m : Metrics)
    (s : LoadState) (htxn : s.txn = none)
    (out : Option PyError × Metrics × LoadState)
    (hout : loadBodyRest env (some df) modeUpsert m s = out)
    (hso : (out.1).isSome = true) :
    (∀ t, s.db.table = some t → out.2.2.db.table = some t) ∧
    (s.db.table = none →
      out.2.2.db.table = none ∨
      ∃ cols, out.2.2.db.table = some (Table.mk cols [])) := by
  unfold loadBodyRest at hout
  simp only [resolveDf] at hout
  rcases hrec : reconcileSchema env (cleanDataFrame df) m s with ⟨e?, m2, s2⟩
  rw [hrec] at hout
  have hpres := reconcileSchema_db_table env (cleanDataFrame df) m s htxn
  rw [hrec] at hpres
  cases e? with
  | some e =>
    simp only at hout
    subst hout
    refine ⟨fun t ht => by rw [hpres.1 t ht]; exact ht, fun hn => ?_⟩
    rcases hpres.2 hn with h | h
    · exact Or.inl h
    · exact Or.inr ⟨(cleanDataFrame df).columns, h⟩
  | none =>
    simp only at hout hpres
    rcases ham : applyMode env (cleanDataFrame df) modeUpsert s2 with ⟨e2?, s3⟩
    rw [ham] at hout
    cases e2? with
    | none =>
      simp only at hout
      subst hout
      simp at hso
    | some e2 =>
      simp only at hout
      subst hout
      have happ : applyMode env (cleanDataFrame df) modeUpsert s2 =
          loadUpsert env (cleanDataFrame df) s2 := by
        unfold applyMode
        rw [if_neg (by decide), if_neg (by decide), if_pos rfl]
      have hup : s3.db = s2.db := by
        have hx := loadUpsert_err_db env (cleanDataFrame df) s2
          (by rw [← happ, ham]; rfl)
        rw [← happ, ham] at hx
        exact hx
      simp only
      constructor
      · intro t ht
        rw [hup, hpres.1 t ht]
        exact ht
      · intro hn
        rcases hpres.2 hn with h | h
        · left
          rw [hup]
          exact h
        · right
          exact ⟨(cleanDataFrame df).columns, by rw [hup]; exact h⟩

theorem disconnectDB_db (s : LoadState) : (disconnectDB s).db = s.db := by
  unfold disconnectDB
  by_cases h : s.connOpen = true <;> simp [h]

/-- The committed database `load` leaves behind is the one the body left
behind: rollback and disconnect never touch committed state. -/
theorem load_state_db (env : Env) (df? : Option DataFrame) (mode : String)
    (s0 : LoadState) :
    (load env df? mode s0).state.db = (loadBody env df? mode initMetrics s0).2.2.db := by
  unfold load
  rcases hb : loadBody env df? mode initMetrics s0 with ⟨e?, mb, sb⟩
  cases e? with
  | none => simp [disconnectDB_db]
  | some e =>
    simp only
    by_cases hco : sb.connOpen = true <;> by_cases hrf : env.rollbackFail = true <;>
      simp [hco, hrf, disconnectDB_db, rollbackTxn]

/-- C2 (amended): all batches of an upsert invocation run inside one
transaction on the transactional handle, with the single commit coming only
after every batch has succeeded (success-path log); if anything fails, the
transaction is aborted and no rows from any batch are persisted — the
destination table's content is unchanged when the table pre-existed, and at
most an empty table (created during schema reconciliation) remains when it
did not. -/
theorem upsert_transaction_atomicity (env : Env) (df : DataFrame) (db0 : Database) :
    (∀ tc tr, db0.table = some (Table.mk tc tr) → env.noFaults →
      keyColName ∈ (cleanDataFrame df).columns →
      ((load env (some df) modeUpsert (mkState db0)).ok = true) ∧
      ((load env (some df) modeUpsert (mkState db0)).state.log =
        [Event.mk Handle.transactional Stmt.connectStmt,
         Event.mk Handle.pooled Stmt.pingStmt]
          ++ upsertEvents 0 (toBatches (cleanDataFrame df).rows).length
          ++ [Event.mk Handle.transactional Stmt.commitStmt,
              Event.mk Handle.transactional Stmt.closeConn,
              Event.mk Handle.pooled Stmt.disposeEngine])) ∧
    ((load env (some df) modeUpsert (mkState db0)).ok = false →
      (∀ t, db0.table = some t →
        (load env (some df) modeUpsert (mkState db0)).state.db.table = some t) ∧
      (db0.table = none →
        (load env (some df) modeUpsert (mkState db0)).state.db.table = none ∨
        ∃ cols, (load env (some df) modeUpsert (mkState db0)).state.db.table =
          some (Table.mk cols []))) := by
  constructor
  · intro tc tr ht hf hkey
    rw [load_upsert_run env df db0 tc tr hf ht hkey]
    exact ⟨rfl, rfl⟩
  · intro hfail
    have hdb := load_state_db env (some df) modeUpsert (mkState db0)
    rcases hb : loadBody env (some df) modeUpsert initMetrics (mkState db0) with ⟨e?, mb, sb⟩
    rw [hb] at hdb
    simp only at hdb
    cases e? with
    | none =>
      unfold load at hfail
      rw [hb] at hfail
      simp at hfail
    | some e =>
      rw [hdb]
      unfold loadBody at hb
      by_cases hc : env.connectFail = true
      · simp only [connectDB, hc, if_true] at hb
        simp only [Prod.mk.injEq] at hb
        obtain ⟨-, -, hs⟩ := hb
        subst hs
        exact ⟨fun t ht => ht, fun hn => Or.inl hn⟩
      · by_cases hp : env.pingFail = true
        · simp only [connectDB, hc, hp, Bool.false_eq_true, if_false, if_true] at hb
          simp only [Prod.mk.injEq] at hb
          obtain ⟨-, -, hs⟩ := hb
          subst hs
          exact ⟨fun t ht => ht, fun hn => Or.inl hn⟩
        · simp only [connectDB, hc, hp, Bool.false_eq_true, if_false] at hb
          have := loadBodyRest_upsert_db env df initMetrics _
            (by simp [mkState]) (some e, mb, sb) hb rfl
          simpa [mkState] using this

/-- Witness for C2's success half at a concrete upsert run. -/
theorem upsert_transaction_atomicity_witness :
    ((load quietEnv (some dfFix) modeUpsert (mkState dbFix)).ok = true) ∧
    ((load quietEnv (some dfFix) modeUpsert (mkState dbFix)).state.log =
      [Event.mk Handle.transactional Stmt.connectStmt,
       Event.mk Handle.pooled Stmt.pingStmt]
        ++ upsertEvents 0 (toBatches (cleanDataFrame dfFix).rows).length
        ++ [Event.mk Handle.transactional Stmt.commitStmt,
            Event.mk Handle.transactional Stmt.closeConn,
            Event.mk Handle.pooled Stmt.disposeEngine]) :=
  (upsert_transaction_atomicity quietEnv dfFix dbFix).1 ["codigo", "nome"]
    [["1", "old"]] rfl quietEnv_noFaults (by decide)

/-- Counterexample to C2's parenthetical "the destination state for that
invocation is unchanged on error": an upsert invocation whose first batch
fails against an initially absent table leaves the destination changed — the
namespace and an empty table were created during reconciliation and persist
(no rows from any batch are persisted, though). -/
theorem upsert_destination_changed_counterexample :
    ((load upsertFailEnv (some dfFix) modeUpsert (mkState dbNone)).ok = false) ∧
    ((load upsertFailEnv (some dfFix) modeUpsert (mkState dbNone)).state.db ≠ dbNone) ∧
    ((load upsertFailEnv (some dfFix) modeUpsert (mkState dbNone)).state.db.table =
      some (Table.mk ["codigo", "nome"] [])) := by
  decide

/-! ## Handle discipline of the statement log -/

theorem logOk_append {l1 l2 : List Event} (h1 : logOk l1) (h2 : logOk l2) :
    logOk (l1 ++ l2) := by
  intro e he
  rcases List.mem_append.mp he with h | h
  · exact h1 e h
  · exact h2 e h

theorem logOk_single (ev : Event) (h : ev.handle = handleOf ev.stmt) : logOk [ev] := by
  intro e he
  simp only [List.mem_singleton] at he
  subst he
  exact h

theorem logOk_connectDB (env : Env) (s : LoadState) (h : logOk s.log) :
    logOk (connectDB env s).2.log := by
  unfold connectDB
  split
  · exact h
  split
  · exact logOk_append h (logOk_single _ rfl)
  · refine logOk_append h ?_
    intro e he
    simp only [List.mem_cons, List.not_mem_nil, or_false] at he
    rcases he with rfl | rfl <;> rfl

theorem logOk_execTxn (s : LoadState) (st : Stmt) (f : Database → Database)
    (hst : handleOf st = Handle.transactional) (h : logOk s.log) :
    logOk (execTxn s st f).log :=
  logOk_append h (logOk_single _ hst.symm)

theorem logOk_execPooled (s : LoadState) (st : Stmt) (f : Database → Database)
    (hst : handleOf st = Handle.pooled) (h : logOk s.log) :
    logOk (execPooled s st f).log :=
  logOk_append h (logOk_single _ hst.symm)

theorem logOk_commitTxn (s : LoadState) (h : logOk s.log) : logOk (commitTxn s).log :=
  logOk_append h (logOk_single _ rfl)

theorem logOk_rollbackTxn (s : LoadState) (h : logOk s.log) : logOk (rollbackTxn s).log :=
  logOk_append h (logOk_single _ rfl)

theorem logOk_disconnectDB (s : LoadState) (h : logOk s.log) :
    logOk (disconnectDB s).log := by
  unfold disconnectDB
  by_cases hc : s.connOpen = true <;>
    simp only [hc, if_true, Bool.false_eq_true, if_false]
  · exact logOk_append (logOk_append h (logOk_single _ rfl)) (logOk_single _ rfl)
  · exact logOk_append h (logOk_single _ rfl)

theorem logOk_createTable (env : Env) (df : DataFrame) (s : LoadState)
    (h : logOk s.log) : logOk (createTable env df s).2.log := by
  unfold createTable
  split
  · exact h
  split
  · exact logOk_commitTxn _ (logOk_execTxn _ _ _ rfl h)
  · exact logOk_execPooled _ _ _ rfl (logOk_commitTxn _ (logOk_execTxn _ _ _ rfl h))

theorem logOk_reconcileSchema (env : Env) (df : DataFrame) (m : Metrics)
    (s : LoadState) (h : logOk s.log) : logOk (reconcileSchema env df m s).2.2.log := by
  unfold reconcileSchema
  split
  · exact h
  split
  · exact h
  · rcases hct : createTable env df s with ⟨e?, s1⟩
    have := logOk_createTable env df s h
    rw [hct] at this
    cases e? <;> exact this

theorem logOk_loadAppendAux (env : Env) (cols : List String) :
    ∀ (batches : List (List (List Val))) (i : Nat) (s : LoadState),
      logOk s.log → logOk (loadAppendAux env cols batches i s).2.log := by
  intro batches
  induction batches with
  | nil => intro i s h; exact h
  | cons b rest ih =>
    intro i s h
    simp only [loadAppendAux]
    split
    · exact h
    · exact ih (i + 1) _ (logOk_execPooled _ _ _ rfl h)

theorem logOk_loadUpsertAux (env : Env) (k : Nat) :
    ∀ (batches : List (List (List Val))) (i : Nat) (s : LoadState),
      logOk s.log → logOk (loadUpsertAux env k batches i s).2.log := by
  intro batches
  induction batches with
  | nil => intro i s h; exact h
  | cons b rest ih =>
    intro i s h
    simp only [loadUpsertAux]
    split
    · exact h
    · exact ih (i + 1) _ (logOk_execTxn _ _ _ rfl h)

theorem logOk_applyMode (env : Env) (df : DataFrame) (mode : String)
    (s : LoadState) (h : logOk s.log) : logOk (applyMode env df mode s).2.log := by
  unfold applyMode loadReplace loadAppend loadUpsert
  split
  · split
    · exact h
    · exact logOk_loadAppendAux env df.columns _ 0 _
        (logOk_commitTxn _ (logOk_execTxn _ _ _ rfl h))
  split
  · exact logOk_loadAppendAux env df.columns _ 0 _ h
  split
  · split
    · exact h
    · rcases hub : loadUpsertAux env (keyIdx df.columns) (toBatches df.rows) 0 s with ⟨e?, s1⟩
      have := logOk_loadUpsertAux env (keyIdx df.columns) (toBatches df.rows) 0 s h
      rw [hub] at this
      cases e? with
      | some e => exact this
      | none => exact logOk_commitTxn _ this
  · exact h

theorem logOk_loadBodyRest (env : Env) (df? : Option DataFrame) (mode : String)
    (m : Metrics) (s : LoadState) (h : logOk s.log) :
    logOk (loadBodyRest env df? mode m s).2.2.log := by
  unfold loadBodyRest
  rcases resolveDf env df? with e | df0
  · exact h
  simp only
  rcases hrec : reconcileSchema env (cleanDataFrame df0) m s with ⟨e?, m2, s2⟩
  have h2 := logOk_reconcileSchema env (cleanDataFrame df0) m s h
  rw [hrec] at h2
  cases e? with
  | some e => exact h2
  | none =>
    simp only
    rcases ham : applyMode env (cleanDataFrame df0) mode s2 with ⟨e2?, s3⟩
    have h3 := logOk_applyMode env (cleanDataFrame df0) mode s2 h2
    rw [ham] at h3
    cases e2? <;> exact h3

theorem logOk_loadBody (env : Env) (df? : Option DataFrame) (mode : String)
    (m : Metrics) (s : LoadState) (h : logOk s.log) :
    logOk (loadBody env df? mode m s).2.2.log := by
  unfold loadBody
  rcases hcn : connectDB env s with ⟨e?, s1⟩
  have h1 := logOk_connectDB env s h
  rw [hcn] at h1
  cases e? with
  | some e => exact h1
  | none => exact logOk_loadBodyRest env df? mode m s1 h1

/-- C4 (amended): every statement of every invocation is issued on a fixed
handle per statement shape — namespace creation, truncation, upserts, commit
and rollback on the transactional handle, row-batch inserts on the pooled
engine; however, table creation during schema reconciliation goes through
the POOLED engine (`df.head(0).to_sql(..., con=self.engine)`), not the
transactional handle. -/
theorem handle_discipline (env : Env) (df? : Option DataFrame) (mode : String)
    (db0 : Database) :
    (∀ e ∈ (load env df? mode (mkState db0)).state.log, e.handle = handleOf e.stmt) ∧
    (handleOf Stmt.createTable = Handle.pooled) ∧
    (handleOf Stmt.createSchema = Handle.transactional) ∧
    (handleOf Stmt.truncate = Handle.transactional) ∧
    (∀ i, handleOf (Stmt.insertBatch i) = Handle.pooled) ∧
    (∀ i, handleOf (Stmt.upsertBatch i) = Handle.transactional) ∧
    (handleOf Stmt.commitStmt = Handle.transactional) ∧
    (handleOf Stmt.rollbackStmt = Handle.transactional) := by
  refine ⟨?_, rfl, rfl, rfl, fun i => rfl, fun i => rfl, rfl, rfl⟩
  have hempty : logOk (mkState db0).log := by
    intro e he
    simp [mkState] at he
  have hbody := logOk_loadBody env df? mode initMetrics (mkState db0) hempty
  unfold load
  rcases hb : loadBody env df? mode initMetrics (mkState db0) with ⟨e?, mb, sb⟩
  rw [hb] at hbody
  cases e? with
  | none => exact logOk_disconnectDB _ hbody
  | some e =>
    simp only
    by_cases hco : sb.connOpen = true <;> by_cases hrf : env.rollbackFail = true <;>
      simp only [hco, hrf, if_true, Bool.false_eq_true, if_false] <;>
      exact logOk_disconnectDB _ (by first | exact logOk_rollbackTxn _ hbody | exact hbody)

/-- Witness for C4's amended statement: the table-creation event of a
concrete run is classified, and it sits on the pooled engine. -/
theorem handle_discipline_witness :
    ((Event.mk Handle.pooled Stmt.createTable).handle =
      handleOf (Event.mk Handle.pooled Stmt.createTable).stmt) ∧
    (handleOf Stmt.createTable = Handle.pooled) :=
  ⟨(handle_discipline quietEnv (some dfFix) modeAppend dbNone).1
      (Event.mk Handle.pooled Stmt.createTable) (by decide),
   (handle_discipline quietEnv (some dfFix) modeAppend dbNone).2.1⟩

/-- Counterexample to C4 as stated: in a run that creates the table, the
creation DDL is logged on the pooled engine and never on the transactional
handle. -/
theorem table_creation_pooled_counterexample :
    (Event.mk Handle.pooled Stmt.createTable ∈
      (load quietEnv (some dfFix) modeAppend (mkState dbNone)).state.log) ∧
    (Event.mk Handle.transactional Stmt.createTable ∉
      (load quietEnv (some dfFix) modeAppend (mkState dbNone)).state.log) := by
  decide

/-! ## Internal-column stripping -/

theorem cleanDataFrame_columns_eq (df : DataFrame) :
    (cleanDataFrame df).columns = df.columns.filter (fun c => !(isInternalCol c)) := by
  unfold cleanDataFrame dropColumns
  by_cases hin : (df.columns.filter (fun c => isInternalCol c)).isEmpty = true
  · rw [if_pos hin]
    rw [List.isEmpty_iff] at hin
    rw [List.filter_eq_nil_iff] at hin
    symm
    rw [List.filter_eq_self]
    intro c hc
    simpa using hin c hc
  · rw [if_neg hin]
    simp only
    apply List.filter_congr
    intro c hc
    rcases h : isInternalCol c with _ | _
    · simp [List.mem_filter, h]
    · simp [List.mem_filter, h, hc]

theorem cleanDataFrame_cols_clean (df : DataFrame) :
    ∀ c ∈ (cleanDataFrame df).columns, isInternalCol c = false := by
  intro c hc
  rw [cleanDataFrame_columns_eq] at hc
  rcases List.mem_filter.mp hc with ⟨-, h⟩
  simpa using h

theorem dbColsOk_txnView (s : LoadState) (h : stColsOk s) : dbColsOk (txnView s) := by
  unfold txnView
  rcases hx : s.txn with _ | d
  · simpa using h.1
  · simpa using h.2 d hx

theorem stColsOk_execTxn (s : LoadState) (st : Stmt) (f : Database → Database)
    (hf : ∀ d, dbColsOk d → dbColsOk (f d)) (h : stColsOk s) :
    stColsOk (execTxn s st f) := by
  refine ⟨h.1, ?_⟩
  intro v hv
  simp only [execTxn, Option.some.injEq] at hv
  subst hv
  exact hf _ (dbColsOk_txnView s h)

theorem stColsOk_commitTxn (s : LoadState) (h : stColsOk s) : stColsOk (commitTxn s) := by
  refine ⟨dbColsOk_txnView s h, ?_⟩
  intro v hv
  simp [commitTxn] at hv

theorem stColsOk_rollbackTxn (s : LoadState) (h : stColsOk s) :
    stColsOk (rollbackTxn s) := by
  refine ⟨h.1, ?_⟩
  intro v hv
  simp [rollbackTxn] at hv

theorem stColsOk_execPooled (s : LoadState) (st : Stmt) (f : Database → Database)
    (hf : ∀ d, dbColsOk d → dbColsOk (f d)) (h : stColsOk s) :
    stColsOk (execPooled s st f) := by
  refine ⟨hf _ h.1, ?_⟩
  intro v hv
  simp only [execPooled] at hv
  exact h.2 v hv

theorem stColsOk_disconnectDB (s : LoadState) (h : stColsOk s) :
    stColsOk (disconnectDB s) := by
  unfold disconnectDB
  by_cases hc : s.connOpen = true <;>
    simp only [hc, if_true, Bool.false_eq_true, if_false] <;>
    exact ⟨h.1, fun v hv => h.2 v hv⟩

theorem stColsOk_connectDB (env : Env) (s : LoadState) (h : stColsOk s) :
    stColsOk (connectDB env s).2 := by
  unfold connectDB
  split
  · exact h
  split <;> exact ⟨h.1, fun v hv => h.2 v hv⟩

theorem stColsOk_createTable (env : Env) (df : DataFrame) (s : LoadState)
    (hdf : ∀ c ∈ df.columns, isInternalCol c = false) (h : stColsOk s) :
    stColsOk (createTable env df s).2 := by
  unfold createTable
  split
  · exact h
  split
  · exact stColsOk_commitTxn _ (stColsOk_execTxn _ _ _
      (fun d hd t ht => by
        simp only at ht
        exact hd t ht) h)
  · refine stColsOk_execPooled _ _ _ ?_ (stColsOk_commitTxn _ (stColsOk_execTxn _ _ _
      (fun d hd t ht => by
        simp only at ht
        exact hd t ht) h))
    intro d hd t ht
    simp only [Option.some.injEq] at ht
    subst ht
    simpa using hdf

theorem stColsOk_reconcileSchema (env : Env) (df : DataFrame) (m : Metrics)
    (s : LoadState) (hdf : ∀ c ∈ df.columns, isInternalCol c = false)
    (h : stColsOk s) : stColsOk (reconcileSchema env df m s).2.2 := by
  unfold reconcileSchema
  split
  · exact h
  split
  · exact h
  · rcases hct : createTable env df s with ⟨e?, s1⟩
    have := stColsOk_createTable env df s hdf h
    rw [hct] at this
    cases e? <;> exact this

theorem dbColsOk_toSqlAppend (cols : List String) (b : List (List Val))
    (hcols : ∀ c ∈ cols, isInternalCol c = false) (d : Database)
    (hd : dbColsOk d) : dbColsOk (toSqlAppend cols b d) := by
  unfold toSqlAppend
  rcases htb : d.table with _ | t
  · intro t' ht'
    simp only [Option.some.injEq] at ht'
    subst ht'
    simpa using hcols
  · intro t' ht'
    simp only [Option.some.injEq] at ht'
    subst ht'
    simpa using hd t htb

theorem stColsOk_loadAppendAux (env : Env) (cols : List String)
    (hcols : ∀ c ∈ cols, isInternalCol c = false) :
    ∀ (batches : List (List (List Val))) (i : Nat) (s : LoadState),
      stColsOk s → stColsOk (loadAppendAux env cols batches i s).2 := by
  intro batches
  induction batches with
  | nil => intro i s h; exact h
  | cons b rest ih =>
    intro i s h
    simp only [loadAppendAux]
    split
    · exact h
    · exact ih (i + 1) _ (stColsOk_execPooled _ _ _
        (dbColsOk_toSqlAppend cols b hcols) h)

theorem dbColsOk_upsertBatchEffect (k : Nat) (b : List (List Val)) (d : Database)
    (hd : dbColsOk d) : dbColsOk (upsertBatchEffect k b d) := by
  unfold upsertBatchEffect
  intro t' ht'
  simp only [Option.map_eq_some'] at ht'
  obtain ⟨t, htb, rfl⟩ := ht'
  simpa using hd t htb

theorem stColsOk_loadUpsertAux (env : Env) (k : Nat) :
    ∀ (batches : List (List (List Val))) (i : Nat) (s : LoadState),
      stColsOk s → stColsOk (loadUpsertAux env k batches i s).2 := by
  intro batches
  induction batches with
  | nil => intro i s h; exact h
  | cons b rest ih =>
    intro i s h
    simp only [loadUpsertAux]
    split
    · exact h
    · exact ih (i + 1) _ (stColsOk_execTxn _ _ _
        (dbColsOk_upsertBatchEffect k b) h)

theorem stColsOk_applyMode (env : Env) (df : DataFrame) (mode : String)
    (s : LoadState) (hdf : ∀ c ∈ df.columns, isInternalCol c = false)
    (h : stColsOk s) : stColsOk (applyMode env df mode s).2 := by
  unfold applyMode loadReplace loadAppend loadUpsert
  split
  · split
    · exact h
    · refine stColsOk_loadAppendAux env df.columns hdf _ 0 _
        (stColsOk_commitTxn _ (stColsOk_execTxn _ _ _ ?_ h))
      intro d hd t' ht'
      simp only [Option.map_eq_some'] at ht'
      obtain ⟨t, htb, rfl⟩ := ht'
      simpa using hd t htb
  split
  · exact stColsOk_loadAppendAux env df.columns hdf _ 0 _ h
  split
  · split
    · exact h
    · rcases hub : loadUpsertAux env (keyIdx df.columns) (toBatches df.rows) 0 s with ⟨e?, s1⟩
      have := stColsOk_loadUpsertAux env (keyIdx df.columns) (toBatches df.rows) 0 s h
      rw [hub] at this
      cases e? with
      | some e => exact this
      | none => exact stColsOk_commitTxn _ this
  · exact h

theorem stColsOk_loadBodyRest (env : Env) (df? : Option DataFrame) (mode : String)
    (m : Metrics) (s : LoadState) (h : stColsOk s) :
    stColsOk (loadBodyRest env df? mode m s).2.2 := by
  unfold loadBodyRest
  rcases resolveDf env df? with e | df0
  · exact h
  simp only
  rcases hrec : reconcileSchema env (cleanDataFrame df0) m s with ⟨e?, m2, s2⟩
  have h2 := stColsOk_reconcileSchema env (cleanDataFrame df0) m s
    (cleanDataFrame_cols_clean df0) h
  rw [hrec] at h2
  cases e? with
  | some e => exact h2
  | none =>
    simp only
    rcases ham : applyMode env (cleanDataFrame df0) mode s2 with ⟨e2?, s3⟩
    have h3 := stColsOk_applyMode env (cleanDataFrame df0) mode s2
      (cleanDataFrame_cols_clean df0) h2
    rw [ham] at h3
    cases e2? <;> exact h3

theorem stColsOk_loadBody (env : Env) (df? : Option DataFrame) (mode : String)
    (m : Metrics) (s : LoadState) (h : stColsOk s) :
    stColsOk (loadBody env df? mode m s).2.2 := by
  unfold loadBody
  rcases hcn : connectDB env s with ⟨e?, s1⟩
  have h1 := stColsOk_connectDB env s h
  rw [hcn] at h1
  cases e? with
  | some e => exact h1
  | none => exact stColsOk_loadBodyRest env df? mode m s1 h1

/-- C8: internal-prefixed columns are stripped before schema reconciliation
and before any write — the cleaned dataframe has none, and an invocation
against a destination without internal columns never produces one: no such
column ever appears as a destination column after `load()`, in any mode. -/
theorem internal_columns_stripped (env : Env) (df? : Option DataFrame)
    (mode : String) (s0 : LoadState) (h0 : stColsOk s0) :
    (∀ (df : DataFrame), ∀ c ∈ (cleanDataFrame df).columns, isInternalCol c = false) ∧
    (∀ t, (load env df? mode s0).state.db.table = some t →
      ∀ c ∈ t.columns, isInternalCol c = false) := by
  refine ⟨fun df => cleanDataFrame_cols_clean df, ?_⟩
  have hbody := stColsOk_loadBody env df? mode initMetrics s0 h0
  unfold load
  rcases hb : loadBody env df? mode initMetrics s0 with ⟨e?, mb, sb⟩
  rw [hb] at hbody
  cases e? with
  | none => exact (stColsOk_disconnectDB _ hbody).1
  | some e =>
    simp only
    by_cases hco : sb.connOpen = true <;> by_cases hrf : env.rollbackFail = true <;>
      simp only [hco, hrf, if_true, Bool.false_eq_true, if_false] <;>
      exact (stColsOk_disconnectDB _
        (by first | exact stColsOk_rollbackTxn _ hbody | exact hbody)).1

/-- Witness for C8 at a concrete run: neither the key column nor the name
column of the resulting destination table is internal-marked. -/
theorem internal_columns_stripped_witness :
    (isInternalCol ("codigo") = false) ∧ (isInternalCol ("nome") = false) :=
  ⟨(internal_columns_stripped quietEnv (some dfFix) modeReplace (mkState dbFix)
      ⟨fun t ht => by cases ht; decide, fun v hv => nomatch hv⟩).1 dfFix
      ("codigo") (by decide),
   (internal_columns_stripped quietEnv (some dfFix) modeReplace (mkState dbFix)
      ⟨fun t ht => by cases ht; decide, fun v hv => nomatch hv⟩).2
      (Table.mk ["codigo", "nome"] (cleanDataFrame dfFix).rows) (by decide)
      ("nome") (by decide)⟩

/-! ## Metrics finalization -/

theorem reconcileSchema_metrics_partial (env : Env) (df : DataFrame) (m : Metrics)
    (s : LoadState) :
    (reconcileSchema env df m s).2.1.rows_loaded = m.rows_loaded ∧
    (reconcileSchema env df m s).2.1.load_time_seconds = m.load_time_seconds := by
  unfold reconcileSchema
  split
  · exact ⟨rfl, rfl⟩
  split
  · exact ⟨rfl, rfl⟩
  rcases createTable env df s with ⟨e?, s1⟩
  cases e? <;> exact ⟨rfl, rfl⟩

theorem reconcileSchema_ok_metrics (env : Env) (df : DataFrame) (m : Metrics)
    (s : LoadState) (out : Option PyError × Metrics × LoadState)
    (hout : reconcileSchema env df m s = out) (h : out.1 = none) :
    out.2.1 = { m with table_created :=
      if s.db.table.isSome = true then m.table_created else true } := by
  unfold reconcileSchema at hout
  split at hout
  · subst hout
    exact nomatch h
  · split at hout
    · rename_i hs
      subst hout
      rw [if_pos hs]
    · rename_i hns
      rw [if_neg hns]
      rcases hct : createTable env df s with ⟨e?, s1⟩
      rw [hct] at hout
      cases e? with
      | some e =>
        simp only at hout
        subst hout
        exact nomatch h
      | none =>
        simp only at hout
        subst hout
        rfl

theorem connectDB_db (env : Env) (s : LoadState) : (connectDB env s).2.db = s.db := by
  unfold connectDB
  split
  · rfl
  split <;> rfl

theorem loadBody_metrics_eq (env : Env) (df? : Option DataFrame) (mode : String)
    (s0 : LoadState) :
    (load env df? mode s0).metrics = (loadBody env df? mode initMetrics s0).2.1 := by
  unfold load
  rcases hb : loadBody env df? mode initMetrics s0 with ⟨e?, mb, sb⟩
  cases e? <;> rfl

theorem load_ok_iff (env : Env) (df? : Option DataFrame) (mode : String)
    (s0 : LoadState) :
    (load env df? mode s0).ok = ((loadBody env df? mode initMetrics s0).1).isNone := by
  unfold load
  rcases hb : loadBody env df? mode initMetrics s0 with ⟨e?, mb, sb⟩
  cases e? <;> rfl

theorem loadBodyRest_err_metrics (env : Env) (df? : Option DataFrame)
    (mode : String) (m : Metrics) (s : LoadState)
    (out : Option PyError × Metrics × LoadState)
    (hout : loadBodyRest env df? mode m s = out) (h : (out.1).isSome = true) :
    out.2.1.rows_loaded = m.rows_loaded ∧
    out.2.1.load_time_seconds = m.load_time_seconds := by
  unfold loadBodyRest at hout
  rcases hres : resolveDf env df? with e | df0
  · rw [hres] at hout
    subst hout
    exact ⟨rfl, rfl⟩
  · rw [hres] at hout
    simp only at hout
    rcases hrec : reconcileSchema env (cleanDataFrame df0) m s with ⟨e?, m2, s2⟩
    rw [hrec] at hout
    have hm := reconcileSchema_metrics_partial env (cleanDataFrame df0) m s
    rw [hrec] at hm
    cases e? with
    | some e =>
      simp only at hout
      subst hout
      exact hm
    | none =>
      simp only at hout
      rcases ham : applyMode env (cleanDataFrame df0) mode s2 with ⟨e2?, s3⟩
      rw [ham] at hout
      cases e2? with
      | some e2 =>
        simp only at hout
        subst hout
        exact hm
      | none =>
        simp only at hout
        subst hout
        simp at h

theorem loadBodyRest_ok_metrics (env : Env) (df : DataFrame) (mode : String)
    (m : Metrics) (s : LoadState) (out : Option PyError × Metrics × LoadState)
    (hout : loadBodyRest env (some df) mode m s = out) (h : out.1 = none) :
    out.2.1 = { rows_loaded := (cleanDataFrame df).rows.length,
                load_time_seconds := env.elapsedSeconds,
                table_created :=
                  if s.db.table.isSome = true then m.table_created else true } := by
  unfold loadBodyRest at hout
  simp only [resolveDf] at hout
  rcases hrec : reconcileSchema env (cleanDataFrame df) m s with ⟨e?, m2, s2⟩
  rw [hrec] at hout
  cases e? with
  | some e =>
    simp only at hout
    subst hout
    exact nomatch h
  | none =>
    have hm2 := reconcileSchema_ok_metrics env (cleanDataFrame df) m s
      (none, m2, s2) hrec rfl
    simp only at hm2 hout
    rcases ham : applyMode env (cleanDataFrame df) mode s2 with ⟨e2?, s3⟩
    rw [ham] at hout
    cases e2? with
    | some e2 =>
      simp only at hout
      subst hout
      exact nomatch h
    | none =>
      simp only at hout
      subst hout
      simp only
      rw [hm2]

theorem loadBody_err_metrics (env : Env) (df? : Option DataFrame) (mode : String)
    (s0 : LoadState) (out : Option PyError × Metrics × LoadState)
    (hout : loadBody env df? mode initMetrics s0 = out) (h : (out.1).isSome = true) :
    out.2.1.rows_loaded = 0 ∧ out.2.1.load_time_seconds = 0 := by
  unfold loadBody at hout
  rcases hcn : connectDB env s0 with ⟨e?, s1⟩
  rw [hcn] at hout
  cases e? with
  | some e =>
    simp only at hout
    subst hout
    exact ⟨rfl, rfl⟩
  | none =>
    simp only at hout
    exact loadBodyRest_err_metrics env df? mode initMetrics s1 out hout h

theorem loadBody_ok_metrics (env : Env) (df : DataFrame) (mode : String)
    (s0 : LoadState) (out : Option PyError × Metrics × LoadState)
    (hout : loadBody env (some df) mode initMetrics s0 = out) (h : out.1 = none) :
    out.2.1 = { rows_loaded := (cleanDataFrame df).rows.length,
                load_time_seconds := env.elapsedSeconds,
                table_created :=
                  if s0.db.table.isSome = true then false else true } := by
  unfold loadBody at hout
  rcases hcn : connectDB env s0 with ⟨e?, s1⟩
  have hdb1 := connectDB_db env s0
  rw [hcn] at hout hdb1
  cases e? with
  | some e =>
    simp only at hout
    subst hout
    exact nomatch h
  | none =>
    simp only at hout hdb1
    rw [loadBodyRest_ok_metrics env df mode initMetrics s1 out hout h, hdb1]
    rfl

/-- C9 (amended): the metrics dictionary is initialized at construction and
finalized only on the success path — a successful run records the cleaned
row count (equal to the dataset's row count; cleaning drops columns, not
rows), the elapsed wall time and whether this invocation created the table,
while a failed run leaves `rows_loaded` and `load_time_seconds` at their
initial zero values (only `table_created` may have been set before the
failure). -/
theorem metrics_success_only (env : Env) (df : DataFrame) (mode : String)
    (s0 : LoadState) :
    ((load env (some df) mode s0).ok = false →
      ((load env (some df) mode s0).metrics.rows_loaded = 0) ∧
      ((load env (some df) mode s0).metrics.load_time_seconds = 0)) ∧
    ((load env (some df) mode s0).ok = true →
      (load env (some df) mode s0).metrics =
        { rows_loaded := (cleanDataFrame df).rows.length,
          load_time_seconds := env.elapsedSeconds,
          table_created :=
            if s0.db.table.isSome = true then false else true }) := by
  have hme := loadBody_metrics_eq env (some df) mode s0
  have hok := load_ok_iff env (some df) mode s0
  rcases hb : loadBody env (some df) mode initMetrics s0 with ⟨e?, mb, sb⟩
  rw [hb] at hme hok
  constructor
  · intro hfail
    rw [hok] at hfail
    rw [hme]
    cases e? with
    | none => simp at hfail
    | some e =>
      exact loadBody_err_metrics env (some df) mode s0 (some e, mb, sb) hb rfl
  · intro hsucc
    rw [hok] at hsucc
    rw [hme]
    cases e? with
    | some e => simp at hsucc
    | none =>
      exact loadBody_ok_metrics env df mode s0 (none, mb, sb) hb rfl

/-- Witness for C9's amended statement at a concrete successful run. -/
theorem metrics_success_only_witness :
    ((load quietEnv (some dfFix) modeReplace (mkState dbFix)).ok = true) ∧
    ((load quietEnv (some dfFix) modeReplace (mkState dbFix)).metrics =
      { rows_loaded := (cleanDataFrame dfFix).rows.length,
        load_time_seconds := quietEnv.elapsedSeconds,
        table_created :=
          if (mkState dbFix).db.table.isSome = true then false else true }) :=
  ⟨by decide,
   (metrics_success_only quietEnv dfFix modeReplace (mkState dbFix)).2 (by decide)⟩

/-- Counterexample to C9 as stated: a failing invocation (invalid mode) with
a two-row dataset and elapsed wall time 7 leaves `rows_loaded = 0` and
`load_time_seconds = 0` — the metrics are NOT finalized on failure. -/
theorem metrics_not_finalized_counterexample :
    ((load quietEnv (some dfFix) modeBogus (mkState dbFix)).ok = false) ∧
    (dfFix.rows.length = 2) ∧
    (quietEnv.elapsedSeconds = 7) ∧
    ((load quietEnv (some dfFix) modeBogus (mkState dbFix)).metrics.rows_loaded = 0) ∧
    ((load quietEnv (some dfFix) modeBogus (mkState dbFix)).metrics.load_time_seconds = 0) := by
  decide
